import Mathlib

/-!
Verification of the tracevibe hierarchy-reconciliation engine.

This file gives a shallow embedding of the reconciliation (import), key
generation, audit logging, deletion and export logic of the tracevibe
repository, and proves or refutes the specification claims about it.

Modelling conventions:
* The SQLite store is a record of tables; each table is a list of rows.
* Row identifiers are natural numbers drawn from a counter `nextId`
  (the real schema uses `hex(randomblob(16))` / `UnixNano` strings; only
  freshness and distinctness of identifiers matter to the code).
* `datetime('now')` timestamps are a `now : Nat` parameter threaded into
  the operations that explicitly write timestamps (`projects.updated_at`,
  `requirements.updated_at`, `requirement_changes.created_at`).  Columns
  whose defaulted timestamps are never read back by the modelled code are
  omitted from the row types.
* JSON-serialised columns (`acceptance_criteria`, `functions`, audit
  snapshots) are modelled by the serialised value itself (`List String`,
  `Option RequirementRow`); `json.Marshal` is injective on these values,
  so equality of rows coincides with byte equality of the stored rows.
* The Go code opens the database without enabling the SQLite
  `foreign_keys` pragma (`database.New` in internal/database/sqlite.go
  calls `sql.Open("sqlite3", dbPath)` with no pragma, and `InitSchema`
  skips the schema file - whose first line is the pragma - whenever the
  tables already exist).  SQLite therefore does not enforce the declared
  `ON DELETE CASCADE` actions, so deletes remove exactly the rows named
  by the `DELETE` statement.  The embedding models this actual behaviour.
* A Go `map[string]string` miss yields the zero value `""`; requirement
  rows store `component_id` as `Option Nat`, with `none` standing for the
  empty-string identifier, which matches no component row.
-/

/-- Row of the `projects` table. -/
structure ProjectRow where
  id : Nat
  projectKey : String
  name : String
  description : String
  repositoryUrl : String
  version : String
  status : String
  createdAt : Nat
  updatedAt : Nat
deriving DecidableEq

/-- Row of the `system_components` table. -/
structure ComponentRow where
  id : Nat
  projectId : Nat
  componentKey : String
  name : String
  componentType : String
  technology : String
  description : String
deriving DecidableEq

/-- Row of the `requirements` table. -/
structure RequirementRow where
  id : Nat
  projectId : Nat
  componentId : Option Nat
  phaseId : Option Nat
  parentId : Option Nat
  requirementKey : String
  requirementType : String
  title : String
  description : String
  category : String
  priority : String
  status : String
  acceptanceCriteria : List String
  createdAt : Nat
  updatedAt : Nat
deriving DecidableEq

/-- Row of the `implementations` table. -/
structure ImplementationRow where
  id : Nat
  requirementId : Nat
  layer : String
  filePath : String
  functions : List String
deriving DecidableEq

/-- Row of the `test_files` table. -/
structure TestFileRow where
  id : Nat
  projectId : Nat
  filePath : String
  testType : String
  layer : String
  framework : String
deriving DecidableEq

/-- Row of the `test_cases` table. -/
structure TestCaseRow where
  id : Nat
  testFileId : Nat
  testName : String
  testType : String
deriving DecidableEq

/-- Row of the `requirement_test_coverage` table. -/
structure CoverageRow where
  id : Nat
  requirementId : Nat
  testCaseId : Nat
  coverageType : String
deriving DecidableEq

/-- Row of the `api_endpoints` table. -/
structure ApiEndpointRow where
  id : Nat
  projectId : Nat
  method : String
  path : String
  handlerFile : String
  handlerFunction : String
  description : String
deriving DecidableEq

/-- Row of the `project_tech_stacks` table (the importer only ever deletes
from this table, so only the columns used by those deletes are modelled). -/
structure TechStackRow where
  id : Nat
  projectId : Nat
  layer : String
deriving DecidableEq

/-- Row of the `requirement_changes` audit table.  The `old_values` and
`new_values` JSON snapshots are modelled by the snapshotted row itself
(empty string, written when the corresponding side is `nil`, is `none`). -/
structure ChangeRow where
  id : Nat
  requirementId : Nat
  changeType : String
  oldValues : Option RequirementRow
  newValues : Option RequirementRow
  changedBy : String
  changeReason : String
  createdAt : Nat
deriving DecidableEq

/-- The persisted SQLite store: one list per table, plus the fresh-id
counter that stands for the unique row-id generator. -/
structure Store where
  nextId : Nat
  projects : List ProjectRow
  components : List ComponentRow
  requirements : List RequirementRow
  implementations : List ImplementationRow
  testFiles : List TestFileRow
  testCases : List TestCaseRow
  coverage : List CoverageRow
  apiEndpoints : List ApiEndpointRow
  techStacks : List TechStackRow
  changes : List ChangeRow
deriving DecidableEq

/-- The store of a freshly initialised database. -/
def emptyStore : Store :=
  { nextId := 0, projects := [], components := [], requirements := [],
    implementations := [], testFiles := [], testCases := [], coverage := [],
    apiEndpoints := [], techStacks := [], changes := [] }

/-! ## The document model (internal/models/rtm.go) -/

/-- `models.Project` (the fields the importer and exporter read). -/
structure ProjectDoc where
  id : String
  name : String
  description : String
  repository : String
  version : String
deriving DecidableEq

/-- `models.SystemComponent` (the fields the importer and exporter read). -/
structure ComponentDoc where
  id : String
  name : String
  componentType : String
  technology : String
  description : String
deriving DecidableEq

/-- `models.FileImpl`. -/
structure FileImplDoc where
  path : String
  functions : List String
deriving DecidableEq

/-- The shared shape of `models.BackendImpl` / `FrontendImpl` /
`DatabaseImpl`: each carries a `Files` list (the extra fields of the
frontend and database variants are never read by the importer). -/
structure LayerImplDoc where
  files : List FileImplDoc
deriving DecidableEq

/-- `models.Implementation`. -/
structure ImplementationDoc where
  backend : Option LayerImplDoc
  frontend : Option LayerImplDoc
  database : Option LayerImplDoc
deriving DecidableEq

/-- `models.TestFile` (a file path plus its test function names). -/
structure TestFileDoc where
  file : String
  functions : List String
deriving DecidableEq

/-- `models.TestCoverage`. -/
structure TestCoverageDoc where
  backend : List TestFileDoc
  frontend : List TestFileDoc
deriving DecidableEq

/-- `models.APIEndpoint`. -/
structure ApiEndpointDoc where
  method : String
  path : String
  handler : String
  description : String
deriving DecidableEq

/-- The scalar fields of a `models.Requirement` node. -/
structure ReqFields where
  id : String
  componentId : String
  reqType : String
  title : String
  description : String
  category : String
  priority : String
  status : String
  acceptanceCriteria : List String
deriving DecidableEq

/-- `models.Requirement`: a node of the document tree, with nested
children. -/
inductive Req where
  | node : ReqFields → Option ImplementationDoc → Option TestCoverageDoc →
      List Req → Req

/-- The scalar fields of a document node. -/
def Req.fields : Req → ReqFields
  | .node f _ _ _ => f

/-- `models.RTMData`, restricted to the fields `importRTMData` reads.
The current models type also carries a nested `Scopes` field; the importer
in internal/importer/importer.go never reads it, so a document is imported
solely through the fields below. -/
structure RTMData where
  project : ProjectDoc
  systemComponents : List ComponentDoc
  requirements : List Req
  apiEndpoints : List ApiEndpointDoc

/-! ## Importer operations (internal/importer/importer.go) -/

/-- The `importProject` step: `SELECT COUNT(*) FROM projects WHERE
project_key = ?`, then either `UPDATE projects SET name, description,
repository_url, version, updated_at = datetime('now')` or `INSERT INTO
projects (..., status) VALUES (..., 'active')`. -/
def importProject (p : ProjectDoc) (now : Nat) (s : Store) : Store :=
  if s.projects.any (fun row => row.projectKey == p.id) then
    { s with
      projects := s.projects.map (fun row =>
        if row.projectKey == p.id then
          { row with
            name := p.name, description := p.description,
            repositoryUrl := p.repository, version := p.version,
            updatedAt := now }
        else row) }
  else
    { s with
      nextId := s.nextId + 1,
      projects := s.projects ++
        [{ id := s.nextId, projectKey := p.id, name := p.name,
           description := p.description, repositoryUrl := p.repository,
           version := p.version, status := "active", createdAt := now,
           updatedAt := now }] }

/-- The `importComponent` step: look up by `(project_id, component_key)`;
insert (returning the generated id) only when absent. -/
def importComponent (pid : Nat) (c : ComponentDoc) (s : Store) :
    Nat × Store :=
  match s.components.find? (fun row =>
      row.projectId == pid && row.componentKey == c.id) with
  | some row => (row.id, s)
  | none =>
    (s.nextId,
     { s with
       nextId := s.nextId + 1,
       components := s.components ++
         [{ id := s.nextId, projectId := pid, componentKey := c.id,
            name := c.name, componentType := c.componentType,
            technology := c.technology, description := c.description }] })

/-- `cleanupProjectData`: the eight `DELETE` statements of overwrite mode,
in source order.  Each subquery is evaluated against the state left by the
previous statement. -/
def cleanupProjectData (pid : Nat) (s : Store) : Store :=
  let s1 := { s with
              coverage := s.coverage.filter (fun cv =>
              !(s.requirements.any (fun r =>
              r.id == cv.requirementId && r.projectId == pid))) }
  let s2 := { s1 with
              testCases := s1.testCases.filter (fun tc =>
              !(s1.testFiles.any (fun tf =>
              tf.id == tc.testFileId && tf.projectId == pid))) }
  let s3 := { s2 with
              testFiles := s2.testFiles.filter (fun tf =>
              !(tf.projectId == pid)) }
  let s4 := { s3 with
              implementations := s3.implementations.filter (fun m =>
              !(s3.requirements.any (fun r =>
              r.id == m.requirementId && r.projectId == pid))) }
  let s5 := { s4 with
              requirements := s4.requirements.filter (fun r =>
              !(r.projectId == pid)) }
  let s6 := { s5 with
              apiEndpoints := s5.apiEndpoints.filter (fun e =>
              !(e.projectId == pid)) }
  let s7 := { s6 with
              components := s6.components.filter (fun c =>
              !(c.projectId == pid)) }
  { s7 with
    techStacks := s7.techStacks.filter (fun t =>
      !(t.projectId == pid)) }

/-- `cleanupRequirementData`: delete the coverage links and implementation
rows of one requirement (test files and test cases are not touched). -/
def cleanupRequirementData (rid : Nat) (s : Store) : Store :=
  let s1 := { s with
              coverage := s.coverage.filter (fun cv =>
              !(cv.requirementId == rid)) }
  { s1 with
    implementations := s1.implementations.filter (fun m =>
      !(m.requirementId == rid)) }

/-- The row written by the requirements insert statement, with id `n`
from the generator (`phase_id` is not in the column list, so it is null). -/
def insertedReqRow (pid : Nat) (cid parent : Option Nat) (f : ReqFields)
    (now n : Nat) : RequirementRow :=
  { id := n, projectId := pid, componentId := cid, phaseId := none,
    parentId := parent, requirementKey := f.id,
    requirementType := f.reqType, title := f.title,
    description := f.description, category := f.category,
    priority := f.priority, status := f.status,
    acceptanceCriteria := f.acceptanceCriteria,
    createdAt := now, updatedAt := now }

/-- The `INSERT INTO requirements ... RETURNING id` statement.  The schema
declares `UNIQUE(project_id, requirement_key)`, so the insert fails when a
row with the same project and key already exists. -/
def insertRequirementRow (pid : Nat) (cid : Option Nat) (parent : Option Nat)
    (f : ReqFields) (now : Nat) (s : Store) : Except String (Nat × Store) :=
  if s.requirements.any (fun r =>
      r.projectId == pid && r.requirementKey == f.id) then
    .error "UNIQUE constraint failed: requirements.project_id, requirements.requirement_key"
  else
    .ok (s.nextId,
      { s with
        nextId := s.nextId + 1,
        requirements := s.requirements ++
          [insertedReqRow pid cid parent f now s.nextId] })

/-- The column assignments of the requirements `UPDATE` statement
applied to one row (the id, keys, project, phase and `created_at` are
not in the SET list). -/
def updatedReqRow (cid parent : Option Nat) (f : ReqFields) (now : Nat)
    (r : RequirementRow) : RequirementRow :=
  { r with
    componentId := cid, parentId := parent,
    requirementType := f.reqType, title := f.title,
    description := f.description, category := f.category,
    priority := f.priority, status := f.status,
    acceptanceCriteria := f.acceptanceCriteria, updatedAt := now }

/-- The `UPDATE requirements SET component_id, parent_requirement_id,
requirement_type, title, description, category, priority, status,
acceptance_criteria, updated_at WHERE id = ?` statement. -/
def updateRequirementRow (existingId : Nat) (cid : Option Nat)
    (parent : Option Nat) (f : ReqFields) (now : Nat) (s : Store) : Store :=
  { s with
    requirements := s.requirements.map (fun r =>
      if r.id == existingId then updatedReqRow cid parent f now r else r) }

/-- The mode branch of `importRequirement`: overwrite mode always inserts;
update mode looks the node up by `(project_id, requirement_key)` and
either inserts, or updates in place and purges the implementation and
coverage rows of the existing node. -/
def upsertRequirement (pid : Nat) (cid : Option Nat) (parent : Option Nat)
    (f : ReqFields) (ow : Bool) (now : Nat) (s : Store) :
    Except String (Nat × Store) :=
  if ow then
    insertRequirementRow pid cid parent f now s
  else
    match s.requirements.find? (fun r =>
        r.projectId == pid && r.requirementKey == f.id) with
    | none => insertRequirementRow pid cid parent f now s
    | some existing =>
      let s1 := updateRequirementRow existing.id cid parent f now s
      .ok (existing.id, cleanupRequirementData existing.id s1)

/-- The per-layer loop of `importImplementation`: one `INSERT INTO
implementations` per file. -/
def insertImplementationRows (rid : Nat) (layer : String) :
    List FileImplDoc → Store → Store
  | [], s => s
  | f :: fs, s =>
    insertImplementationRows rid layer fs
      { s with
        nextId := s.nextId + 1,
        implementations := s.implementations ++
          [{ id := s.nextId, requirementId := rid, layer := layer,
             filePath := f.path, functions := f.functions }] }

/-- `importImplementation`: backend, then frontend, then database files. -/
def importImplementation (rid : Nat) (im : ImplementationDoc) (s : Store) :
    Store :=
  let s1 := match im.backend with
    | none => s
    | some l => insertImplementationRows rid "backend" l.files s
  let s2 := match im.frontend with
    | none => s1
    | some l => insertImplementationRows rid "frontend" l.files s1
  match im.database with
  | none => s2
  | some l => insertImplementationRows rid "database" l.files s2

/-- `ensureTestFile`: look up by `(project_id, file_path)`, inserting a
row with test type `unit` and a layer-derived framework when absent. -/
def ensureTestFile (pid : Nat) (path layer : String) (s : Store) :
    Nat × Store :=
  match s.testFiles.find? (fun tf =>
      tf.projectId == pid && tf.filePath == path) with
  | some tf => (tf.id, s)
  | none =>
    let fw := if layer == "frontend" then "Jest" else "Go testing"
    (s.nextId,
     { s with
       nextId := s.nextId + 1,
       testFiles := s.testFiles ++
         [{ id := s.nextId, projectId := pid, filePath := path,
            testType := "unit", layer := layer, framework := fw }] })

/-- `ensureTestCase`: look up by `(test_file_id, test_name)`, inserting
when absent. -/
def ensureTestCase (fid : Nat) (name : String) (s : Store) : Nat × Store :=
  match s.testCases.find? (fun tc =>
      tc.testFileId == fid && tc.testName == name) with
  | some tc => (tc.id, s)
  | none =>
    (s.nextId,
     { s with
       nextId := s.nextId + 1,
       testCases := s.testCases ++
         [{ id := s.nextId, testFileId := fid, testName := name,
            testType := "unit" }] })

/-- The `INSERT OR IGNORE INTO requirement_test_coverage` statement
(unique per `(requirement_id, test_case_id)`). -/
def insertCoverageIgnore (rid tcid : Nat) (s : Store) : Store :=
  if s.coverage.any (fun cv =>
      cv.requirementId == rid && cv.testCaseId == tcid) then s
  else
    { s with
      nextId := s.nextId + 1,
      coverage := s.coverage ++
        [{ id := s.nextId, requirementId := rid, testCaseId := tcid,
           coverageType := "requirement" }] }

/-- The inner loop of `importTestFiles` over the functions of one file. -/
def importTestCasesForFile (rid fid : Nat) :
    List String → Store → Store
  | [], s => s
  | fn :: fns, s =>
    let p := ensureTestCase fid fn s
    importTestCasesForFile rid fid fns (insertCoverageIgnore rid p.1 p.2)

/-- `importTestFiles`: one `ensureTestFile` per file, then its cases. -/
def importTestFiles (pid rid : Nat) (layer : String) :
    List TestFileDoc → Store → Store
  | [], s => s
  | tf :: tfs, s =>
    let p := ensureTestFile pid tf.file layer s
    importTestFiles pid rid layer tfs
      (importTestCasesForFile rid p.1 tf.functions p.2)

/-- `importTestCoverage`: backend test files, then frontend test files. -/
def importTestCoverage (pid rid : Nat) (t : TestCoverageDoc) (s : Store) :
    Store :=
  importTestFiles pid rid "frontend" t.frontend
    (importTestFiles pid rid "backend" t.backend s)

/-- `importAPIEndpoint`: `INSERT OR IGNORE INTO api_endpoints` (unique per
`(project_id, method, path)`); the handler is stored as both file and
function. -/
def importAPIEndpoint (pid : Nat) (e : ApiEndpointDoc) (s : Store) : Store :=
  if s.apiEndpoints.any (fun row =>
      row.projectId == pid && row.method == e.method && row.path == e.path)
  then s
  else
    { s with
      nextId := s.nextId + 1,
      apiEndpoints := s.apiEndpoints ++
        [{ id := s.nextId, projectId := pid, method := e.method,
           path := e.path, handlerFile := e.handler,
           handlerFunction := e.handler, description := e.description }] }

mutual

/-- `importRequirement`: upsert the node, attach its implementation and
test coverage, then recurse into its children carrying the fresh node id
as their parent and the component id of the enclosing root unchanged. -/
def importRequirement (pid : Nat) (cid : Option Nat) (r : Req)
    (parent : Option Nat) (ow : Bool) (now : Nat) (s : Store) :
    Except String Store :=
  match r with
  | .node f impl tests children =>
    match upsertRequirement pid cid parent f ow now s with
    | .error e => .error e
    | .ok (rid, s1) =>
      let s2 := match impl with
        | none => s1
        | some im => importImplementation rid im s1
      let s3 := match tests with
        | none => s2
        | some t => importTestCoverage pid rid t s2
      importRequirementChildren pid cid children rid ow now s3

/-- The child loop of `importRequirement`, wrapping errors with the child
key as the Go code does. -/
def importRequirementChildren (pid : Nat) (cid : Option Nat)
    (rs : List Req) (parentId : Nat) (ow : Bool) (now : Nat) (s : Store) :
    Except String Store :=
  match rs with
  | [] => .ok s
  | r :: rest =>
    match importRequirement pid cid r (some parentId) ow now s with
    | .error e =>
      .error ("failed to import child requirement " ++ r.fields.id ++ ": " ++ e)
    | .ok s1 => importRequirementChildren pid cid rest parentId ow now s1

end

/-- Lookup in the `componentMap` built by the component loop (`map miss`
returns the Go zero value `""`, which matches no component: `none`). -/
def componentMapLookup (m : List (String × Nat)) (k : String) : Option Nat :=
  (m.find? (fun e => e.1 == k)).map (fun e => e.2)

/-- The component loop of `importRTMData`, building `componentMap`. -/
def importComponents (pid : Nat) (cs : List ComponentDoc)
    (m : List (String × Nat)) (s : Store) : List (String × Nat) × Store :=
  match cs with
  | [] => (m, s)
  | c :: rest =>
    let p := importComponent pid c s
    importComponents pid rest ((c.id, p.1) :: m) p.2

/-- The root-requirement loop of `importRTMData`: each root resolves its
own component key through `componentMap` and starts with no parent. -/
def importRootRequirements (pid : Nat) (m : List (String × Nat))
    (rs : List Req) (ow : Bool) (now : Nat) (s : Store) :
    Except String Store :=
  match rs with
  | [] => .ok s
  | r :: rest =>
    match importRequirement pid (componentMapLookup m r.fields.componentId)
        r none ow now s with
    | .error e =>
      .error ("failed to import requirement " ++ r.fields.id ++ ": " ++ e)
    | .ok s1 => importRootRequirements pid m rest ow now s1

/-- The endpoint loop of `importRTMData`. -/
def importApiEndpoints (pid : Nat) :
    List ApiEndpointDoc → Store → Store
  | [], s => s
  | e :: es, s => importApiEndpoints pid es (importAPIEndpoint pid e s)

/-- The body of `importRTMData` after the project upsert and project-id
query: optional overwrite cleanup, components, requirements, endpoints. -/
def importAfterProject (d : RTMData) (pid : Nat) (ow : Bool) (now : Nat)
    (s : Store) : Except String Store :=
  let s1 := if ow then cleanupProjectData pid s else s
  let p := importComponents pid d.systemComponents [] s1
  match importRootRequirements pid p.1 d.requirements ow now p.2 with
  | .error e => .error e
  | .ok s2 => .ok (importApiEndpoints pid d.apiEndpoints s2)

/-- The transaction body of `importRTMData`: project upsert, project-id
query, then `importAfterProject`.  The result is the transaction state to
be committed; an error aborts before commit. -/
def importRTMDataTx (d : RTMData) (ow : Bool) (now : Nat) (s : Store) :
    Except String Store :=
  let s1 := importProject d.project now s
  match s1.projects.find? (fun row => row.projectKey == d.project.id) with
  | none => .error "failed to get project ID"
  | some prow => importAfterProject d prow.id ow now s1

/-- `importRTMData` as the caller observes it: `Begin` snapshots the
store, the deferred `Rollback` discards the transaction state on any
error path, and `Commit` publishes it on success.  The second component
is the persisted store after the call. -/
def runImport (d : RTMData) (ow : Bool) (now : Nat) (s : Store) :
    Except String Unit × Store :=
  match importRTMDataTx d ow now s with
  | .ok t => (.ok (), t)
  | .error e => (.error e, s)

/-! ## Database operations (internal/database/requirements.go) -/

/-- `GetRequirementByID`: `SELECT ... FROM requirements WHERE id = ?`. -/
def getRequirementByID (rid : Nat) (s : Store) : Option RequirementRow :=
  s.requirements.find? (fun r => r.id == rid)

/-- `logRequirementChange`: one `INSERT INTO requirement_changes` with the
given change type and old/new snapshots, `changed_by = 'system'` and an
empty reason. -/
def logRequirementChange (rid : Nat) (changeType : String)
    (oldReq newReq : Option RequirementRow) (now : Nat) (s : Store) : Store :=
  { s with
    nextId := s.nextId + 1,
    changes := s.changes ++
      [{ id := s.nextId, requirementId := rid, changeType := changeType,
         oldValues := oldReq, newValues := newReq, changedBy := "system",
         changeReason := "", createdAt := now }] }

/-- `DeleteRequirement`: fetch the row for the audit snapshot, run
`DELETE FROM requirements WHERE id = ?`, then log a `deleted` change.
Because the connection never enables the `foreign_keys` pragma (see the
module comment), the `ON DELETE CASCADE` actions declared in the schema
do not run: exactly the named row is removed, and descendant rows,
implementation rows and coverage rows stay behind. -/
def deleteRequirement (rid : Nat) (now : Nat) (s : Store) :
    Except String Store :=
  match getRequirementByID rid s with
  | none => .error "failed to get requirement: requirement not found"
  | some req =>
    let s1 := { s with
      requirements := s.requirements.filter (fun r => !(r.id == rid)) }
    .ok (logRequirementChange rid "deleted" (some req) none now s1)

/-! ## Key generation (GenerateNextRequirementKey) -/

/-- Byte order on character lists (SQLite BINARY collation; for UTF-8,
byte order coincides with codepoint order). -/
def charListLt : List Char → List Char → Bool
  | [], [] => false
  | [], _ :: _ => true
  | _ :: _, [] => false
  | a :: as, b :: bs =>
    if a.toNat < b.toNat then true
    else if b.toNat < a.toNat then false
    else charListLt as bs

/-- Byte order on strings. -/
def strLtB (a b : String) : Bool := charListLt a.data b.data

/-- SQLite evaluates `ORDER BY requirement_key DESC LIMIT 1` under the
BINARY collation: the greatest key in byte order. -/
def lastKeyDesc (keys : List String) : Option String :=
  keys.foldl (fun acc k =>
    match acc with
    | none => some k
    | some m => if strLtB m k then some k else some m) none

/-- Value of a list of decimal digit characters. -/
def digitsVal (ds : List Char) : Nat :=
  ds.foldl (fun n c => n * 10 + (c.toNat - 48)) 0

/-- The `fmt.Sscanf(lastKey.String, "SCOPE-%d", &lastNum)` parse: the
literal must match and at least one digit must follow, otherwise
`lastNum` keeps its zero value. -/
def scanScopeNum (k : String) : Nat :=
  if "SCOPE-".data == k.data.take 6 then
    digitsVal ((k.data.drop 6).takeWhile (fun c => c.isDigit))
  else 0

/-- The trailing-digit loop used for user stories and tech specs: read
decimal digits from the end of the key; no digits leaves the zero
value. -/
def trailingNum (k : String) : Nat :=
  digitsVal ((k.data.reverse.takeWhile (fun c => c.isDigit)).reverse)

/-- The suffix step shared by the three branches of the generator: with
no sibling the key is the prefix followed by `1`; otherwise the numeric
suffix of the lexicographically greatest sibling key, plus one.
`exactScope` records the unlowered comparison `requirementType ==
"scope"` with which the Go code selects the `Sscanf` parse over the
trailing-digit parse. -/
def nextKeyFromSiblings (pfx : String) (exactScope : Bool)
    (keys : List String) : String :=
  match lastKeyDesc keys with
  | none => pfx ++ "1"
  | some k =>
    let lastNum := if exactScope then scanScopeNum k else trailingNum k
    pfx ++ toString (lastNum + 1)

/-- `strings.ToLower` on the character list of the string (the Go
function lowercases each rune; requirement types are ASCII). -/
def strToLower (s : String) : String :=
  ⟨s.data.map Char.toLower⟩

/-- `GenerateNextRequirementKey`: branch on the lowercased requirement
type; scope keys are scoped per `(project, component)`, user-story and
tech-spec keys per parent node, whose key supplies the prefix. -/
def generateNextRequirementKey (pid : Nat) (cid : Option Nat)
    (requirementType : String) (parentID : Option Nat) (s : Store) :
    Except String String :=
  let lowered := strToLower requirementType
  if lowered == "scope" then
    let keys := (s.requirements.filter (fun r =>
        r.projectId == pid && r.componentId == cid &&
        r.requirementType == "scope")).map (fun r => r.requirementKey)
    .ok (nextKeyFromSiblings "SCOPE-" (requirementType == "scope") keys)
  else if lowered == "user_story" then
    match parentID with
    | none => .error "parent requirement ID required for user stories"
    | some p =>
      match s.requirements.find? (fun r => r.id == p) with
      | none => .error "failed to get parent requirement"
      | some prow =>
        let keys := (s.requirements.filter (fun r =>
            r.projectId == pid && r.parentId == some p &&
            r.requirementType == "user_story")).map (fun r => r.requirementKey)
        .ok (nextKeyFromSiblings (prow.requirementKey ++ "-US-")
          (requirementType == "scope") keys)
  else if lowered == "tech_spec" then
    match parentID with
    | none => .error "parent requirement ID required for tech specs"
    | some p =>
      match s.requirements.find? (fun r => r.id == p) with
      | none => .error "failed to get parent requirement"
      | some prow =>
        let keys := (s.requirements.filter (fun r =>
            r.projectId == pid && r.parentId == some p &&
            r.requirementType == "tech_spec")).map (fun r => r.requirementKey)
        .ok (nextKeyFromSiblings (prow.requirementKey ++ "-TS-")
          (requirementType == "scope") keys)
  else
    .error ("invalid requirement type: " ++ requirementType)

/-- Insertion of a generated key as a new scope row, modelling the caller
persisting each key the generator returns (interactive node creation),
with no deletions between calls. -/
def createScopeRow (pid : Nat) (cid : Option Nat) (key : String)
    (now : Nat) (s : Store) : Store :=
  { s with
    nextId := s.nextId + 1,
    requirements := s.requirements ++
      [{ id := s.nextId, projectId := pid, componentId := cid,
         phaseId := none, parentId := none, requirementKey := key,
         requirementType := "scope", title := "", description := "",
         category := "", priority := "", status := "",
         acceptanceCriteria := [], createdAt := now, updatedAt := now }] }

/-- N successive generate-then-insert rounds for scope keys under one
project and component. -/
def genScopeKeys (pid : Nat) (cid : Option Nat) (now : Nat) :
    Nat → Store → List String
  | 0, _ => []
  | n + 1, s =>
    match generateNextRequirementKey pid cid "scope" none s with
    | .error _ => []
    | .ok k =>
      k :: genScopeKeys pid cid now n (createScopeRow pid cid k now s)

/-- The pure sibling-key form of the scope branch of the generator (the
formalisation `nextKey(prefix, existingSiblingKeys)` suggested by the
specification), iterated while accumulating each generated key as a new
sibling. -/
def pureGenScopeKeys : Nat → List String → List String
  | 0, _ => []
  | n + 1, ks =>
    let k := nextKeyFromSiblings "SCOPE-" true ks
    k :: pureGenScopeKeys n (ks ++ [k])

/-! ## Export (cmd/serve.go, getExportDataAsRTM) -/

/-- One entry of `getComponentsSummary`, restricted to the columns the
export reads. -/
structure ComponentSummary where
  componentKey : String
  name : String
  componentType : String
  technology : String
  description : String
deriving DecidableEq

/-- Insertion into a list kept sorted by a string key. -/
def insertSortedBy (key : α → String) (x : α) : List α → List α
  | [] => [x]
  | y :: ys =>
    if strLtB (key x) (key y) then x :: y :: ys
    else y :: insertSortedBy key x ys

/-- Sorting rows by a string key, modelling the `ORDER BY` clauses of the
export queries (BINARY collation). -/
def sortRowsBy (key : α → String) (l : List α) : List α :=
  l.foldr (insertSortedBy key) []

/-- `getComponentsSummary`: the component rows of the project (the Go
query joins `system_components` to `projects` on the project key, which
resolves to the same row id the caller already holds), ordered by
name. -/
def getComponentsSummary (pid : Nat) (s : Store) : List ComponentSummary :=
  (sortRowsBy (fun c => c.name)
    (s.components.filter (fun c => c.projectId == pid))).map (fun c =>
      { componentKey := c.componentKey, name := c.name,
        componentType := c.componentType, technology := c.technology,
        description := c.description })

/-- `models.UserStory` as the export constructs it.  The Go second pass
appends a copy of each user story to its parent scope before the
tech-spec pass runs; the tech-spec pass mutates only the separate
`userStoryMap` values, so the user stories the export returns always
carry an empty tech-spec list and no tech-spec field is modelled. -/
structure UserStoryExport where
  id : String
  name : String
  description : String
  priority : String
  status : String
deriving DecidableEq

/-- `models.Scope` as the export constructs it: the scope row fields plus
its attached user stories (the scope `ComponentID` is the raw component
row id of the requirement row). -/
structure ScopeExport where
  id : String
  componentId : Option Nat
  name : String
  description : String
  priority : String
  status : String
  userStories : List UserStoryExport
deriving DecidableEq

/-- The scope assembly of `getExportDataAsRTM`: the first pass collects
the scope rows in order; the second pass attaches each user-story row to
the scope row whose id its parent id names (requirement row ids are
unique, so the map lookup of the Go code selects exactly that scope); the
final fix-up loop copies the populated scopes back into the output
list. -/
def buildScopes (reqs : List RequirementRow) : List ScopeExport :=
  (reqs.filter (fun r =>
      r.requirementType == "scope" || r.requirementType == "SCOPE")).map
    (fun sr =>
      { id := sr.requirementKey, componentId := sr.componentId,
        name := sr.title, description := sr.description,
        priority := sr.priority, status := sr.status,
        userStories := (reqs.filter (fun r =>
            (r.requirementType == "user_story" ||
             r.requirementType == "USER_STORY") &&
            r.parentId == some sr.id)).map (fun ur =>
          { id := ur.requirementKey, name := ur.title,
            description := ur.description, priority := ur.priority,
            status := ur.status }) })

/-- The export document assembled by `getExportDataAsRTM` (the project
block is duplicated into the metadata block in Go; the importer reads the
same values from either). -/
structure RTMExport where
  project : ProjectDoc
  systemComponents : List ComponentDoc
  scopes : List ScopeExport
deriving DecidableEq

/-- `getExportDataAsRTM`: look the project up by key, load its
requirement rows ordered by key and its component summary, and assemble
the export document. -/
def getExportDataAsRTM (projectKey : String) (s : Store) :
    Option RTMExport :=
  match s.projects.find? (fun p => p.projectKey == projectKey) with
  | none => none
  | some p =>
    let reqs := sortRowsBy (fun r => r.requirementKey)
      (s.requirements.filter (fun r => r.projectId == p.id))
    some
      { project :=
          { id := p.projectKey, name := p.name,
            description := p.description, repository := p.repositoryUrl,
            version := p.version },
        systemComponents := (getComponentsSummary p.id s).map (fun c =>
          { id := c.componentKey, name := c.name,
            componentType := c.componentType, technology := c.technology,
            description := c.description }),
        scopes := buildScopes reqs }

/-- The exported document as `importRTMData` sees it on re-import: the
importer reads only the project block, the component list, the flat
`requirements` array - which the export leaves empty, since it writes the
hierarchy into `scopes`, a field the importer never reads - and the
endpoint list, which the export does not populate. -/
def exportAsImportInput (e : RTMExport) : RTMData :=
  { project := e.project, systemComponents := e.systemComponents,
    requirements := [], apiEndpoints := [] }

mutual

/-- All node fields occurring in a document subtree. -/
def Req.fieldsOf : Req → List ReqFields
  | .node f _ _ cs => f :: Req.fieldsListOf cs

/-- All node fields occurring in a forest of document subtrees. -/
def Req.fieldsListOf : List Req → List ReqFields
  | [] => []
  | r :: rs => Req.fieldsOf r ++ Req.fieldsListOf rs

end

/-- All node keys of the requirement forest of a document. -/
def docReqKeys (d : RTMData) : List String :=
  (Req.fieldsListOf d.requirements).map (fun f => f.id)

/-! ## Concrete documents and stores used to instantiate the claims -/

/-- A requirement-row template for building concrete stores. -/
def baseReqRow : RequirementRow :=
  { id := 0, projectId := 0, componentId := none, phaseId := none,
    parentId := none, requirementKey := "", requirementType := "scope",
    title := "", description := "", category := "core",
    priority := "medium", status := "not_started",
    acceptanceCriteria := [], createdAt := 0, updatedAt := 0 }

/-- A document-node template. -/
def baseReqFields : ReqFields :=
  { id := "", componentId := "", reqType := "scope", title := "",
    description := "", category := "core", priority := "medium",
    status := "not_started", acceptanceCriteria := [] }

/-- The empty fallback document. -/
def emptyRTMData : RTMData :=
  { project := { id := "", name := "", description := "", repository := "",
                 version := "" },
    systemComponents := [], requirements := [], apiEndpoints := [] }

/-- Round-trip scenario document: one project, one component, one scope
node with an implementation file and one test case. -/
def c1Doc : RTMData :=
  { project := { id := "p1", name := "Proj One", description := "d",
                 repository := "r", version := "1" },
    systemComponents := [{ id := "api", name := "API",
                           componentType := "api_server",
                           technology := "Go", description := "" }],
    requirements :=
      [.node { baseReqFields with
               id := "SCOPE-1", componentId := "api",
               title := "Root scope" }
        (some { backend := some { files := [{ path := "main.go",
                                              functions := ["run"] }] },
                frontend := none, database := none })
        (some { backend := [{ file := "main_test.go",
                              functions := ["TestRun"] }],
                frontend := [] })
        []],
    apiEndpoints := [] }

/-- The store persisted by reconciling `c1Doc` at time 1. -/
def c1S1 : Store := (runImport c1Doc true 1 emptyStore).2

/-- The re-import input produced by exporting project `p1` from `c1S1`. -/
def c1ExportDoc : RTMData :=
  match getExportDataAsRTM "p1" c1S1 with
  | some e => exportAsImportInput e
  | none => emptyRTMData

/-- Overwrite-mode document with two root nodes sharing one key: the
second insert violates `UNIQUE(project_id, requirement_key)`. -/
def c2Doc : RTMData :=
  { project := { id := "p2", name := "Proj Two", description := "",
                 repository := "", version := "" },
    systemComponents := [],
    requirements :=
      [.node { baseReqFields with id := "SCOPE-1" } none none [],
       .node { baseReqFields with id := "SCOPE-1" } none none []],
    apiEndpoints := [] }

/-- A store that already holds unrelated data, used to observe rollback. -/
def c2Store : Store :=
  { emptyStore with
    nextId := 2,
    projects := [{ id := 0, projectKey := "other", name := "O",
                   description := "", repositoryUrl := "", version := "",
                   status := "active", createdAt := 0, updatedAt := 0 }],
    requirements := [{ baseReqRow with
                       id := 1, projectId := 0,
                       requirementKey := "K" }] }

/-- Document whose requirement names component key `db`, which is absent
from the component list (only `api` is declared). -/
def c3Doc : RTMData :=
  { project := { id := "p3", name := "Proj Three", description := "",
                 repository := "", version := "" },
    systemComponents := [{ id := "api", name := "API",
                           componentType := "api_server",
                           technology := "", description := "" }],
    requirements :=
      [.node { baseReqFields with id := "SCOPE-1", componentId := "db" }
        none none []],
    apiEndpoints := [] }

/-- Update-mode document creating one fresh node in an empty store. -/
def c4Doc : RTMData :=
  { project := { id := "p4", name := "Proj Four", description := "",
                 repository := "", version := "" },
    systemComponents := [],
    requirements :=
      [.node { baseReqFields with id := "SCOPE-1" } none none []],
    apiEndpoints := [] }

/-- Scope row of the deletion scenario. -/
def c5Scope : RequirementRow :=
  { baseReqRow with id := 1, requirementKey := "SCOPE-1" }

/-- User-story child of `c5Scope`. -/
def c5Story : RequirementRow :=
  { baseReqRow with
    id := 2, parentId := some 1,
    requirementKey := "SCOPE-1-US-1", requirementType := "user_story" }

/-- Tech-spec child of `c5Story`. -/
def c5Spec : RequirementRow :=
  { baseReqRow with
    id := 3, parentId := some 2,
    requirementKey := "SCOPE-1-US-1-TS-1", requirementType := "tech_spec" }

/-- Implementation row attached to the tech spec. -/
def c5Impl : ImplementationRow :=
  { id := 4, requirementId := 3, layer := "backend", filePath := "a.go",
    functions := ["f"] }

/-- Coverage row attached to the tech spec. -/
def c5Cov : CoverageRow :=
  { id := 5, requirementId := 3, testCaseId := 6,
    coverageType := "requirement" }

/-- An audit entry previously written for the scope node. -/
def c5Audit : ChangeRow :=
  { id := 7, requirementId := 1, changeType := "created",
    oldValues := none, newValues := some c5Scope, changedBy := "system",
    changeReason := "", createdAt := 0 }

/-- A store holding a scope with a user-story and tech-spec descendant,
their implementation and coverage rows, and an audit entry. -/
def c5Store : Store :=
  { emptyStore with
    nextId := 8,
    requirements := [c5Scope, c5Story, c5Spec],
    implementations := [c5Impl],
    coverage := [c5Cov],
    changes := [c5Audit] }

/-- Parent scope row for the key-generation witness. -/
def c8Parent : RequirementRow :=
  { baseReqRow with
    id := 5, projectId := 1, componentId := some 2,
    requirementKey := "SCOPE-2" }

/-- Store holding only the parent scope row. -/
def c8Store : Store :=
  { emptyStore with nextId := 6, requirements := [c8Parent] }

/-- Project row of the update-frame witness store. -/
def c9Project : ProjectRow :=
  { id := 0, projectKey := "p9", name := "Proj Nine", description := "",
    repositoryUrl := "", version := "", status := "active",
    createdAt := 0, updatedAt := 0 }

/-- Scope `S1`, named by the update document. -/
def c9S1 : RequirementRow :=
  { baseReqRow with id := 1, requirementKey := "S1" }

/-- Sibling scope `S2`, absent from the update document. -/
def c9S2 : RequirementRow :=
  { baseReqRow with id := 2, requirementKey := "S2" }

/-- Implementation row of `S2`. -/
def c9Impl : ImplementationRow :=
  { id := 3, requirementId := 2, layer := "backend", filePath := "s2.go",
    functions := [] }

/-- Coverage row of `S2`. -/
def c9Cov : CoverageRow :=
  { id := 4, requirementId := 2, testCaseId := 9,
    coverageType := "requirement" }

/-- Store holding the project, `S1`, `S2` and the rows of `S2`. -/
def c9Store : Store :=
  { emptyStore with
    nextId := 5,
    projects := [c9Project],
    requirements := [c9S1, c9S2],
    implementations := [c9Impl],
    coverage := [c9Cov] }

/-- Update-mode document containing only `S1`. -/
def c9Doc : RTMData :=
  { project := { id := "p9", name := "Proj Nine", description := "",
                 repository := "", version := "" },
    systemComponents := [],
    requirements :=
      [.node { baseReqFields with id := "S1", title := "changed" }
        none none []],
    apiEndpoints := [] }

/-- Store with an orphaned test artifact (no coverage link references
it), used to witness artifact persistence across update imports. -/
def c10Store : Store :=
  { emptyStore with
    nextId := 3,
    projects := [{ id := 0, projectKey := "p10", name := "Proj Ten",
                   description := "", repositoryUrl := "", version := "",
                   status := "active", createdAt := 0, updatedAt := 0 }],
    testFiles := [{ id := 1, projectId := 0, filePath := "old_test.go",
                    testType := "unit", layer := "backend",
                    framework := "Go testing" }],
    testCases := [{ id := 2, testFileId := 1, testName := "TestOld",
                    testType := "unit" }] }

/-- Update-mode document for the artifact-persistence witness. -/
def c10Doc : RTMData :=
  { project := { id := "p10", name := "Proj Ten", description := "",
                 repository := "", version := "" },
    systemComponents := [],
    requirements :=
      [.node { baseReqFields with id := "SCOPE-1" } none
        (some { backend := [{ file := "new_test.go",
                              functions := ["TestNew"] }],
                frontend := [] })
        []],
    apiEndpoints := [] }

/-- First overwrite document of the purge scenario. -/
def c7Doc1 : RTMData :=
  { project := { id := "p7", name := "Proj Seven", description := "",
                 repository := "", version := "" },
    systemComponents := [{ id := "api", name := "API",
                           componentType := "api_server",
                           technology := "", description := "" }],
    requirements :=
      [.node { baseReqFields with id := "A-1", componentId := "api" }
        (some { backend := some { files := [{ path := "a.go",
                                              functions := [] }] },
                frontend := none, database := none })
        (some { backend := [{ file := "a_test.go",
                              functions := ["TestA"] }],
                frontend := [] })
        []],
    apiEndpoints := [] }

/-- Second overwrite document of the purge scenario, with keys disjoint
from `c7Doc1`. -/
def c7Doc2 : RTMData :=
  { project := { id := "p7", name := "Proj Seven v2", description := "",
                 repository := "", version := "" },
    systemComponents := [{ id := "web", name := "Web",
                           componentType := "frontend",
                           technology := "", description := "" }],
    requirements :=
      [.node { baseReqFields with id := "B-1", componentId := "web" }
        none none []],
    apiEndpoints := [] }

/-- The store of a successful run (used to name concrete results; the
error fallback is never reached in the instances below). -/
def okStore : Except String Store → Store
  | .ok t => t
  | .error _ => emptyStore

/-- Result of the referential-integrity scenario import. -/
def c3Result : Store := okStore (importRTMDataTx c3Doc true 1 emptyStore)

/-- Result of the audit scenario import. -/
def c4Result : Store := okStore (importRTMDataTx c4Doc false 1 emptyStore)

/-- Result of the update-frame scenario import. -/
def c9Result : Store := okStore (importRTMDataTx c9Doc false 3 c9Store)

/-- Result of the artifact-persistence scenario import. -/
def c10Result : Store := okStore (importRTMDataTx c10Doc false 3 c10Store)

/-- Store after the first overwrite import of the purge scenario. -/
def c7S1 : Store := okStore (importRTMDataTx c7Doc1 true 1 emptyStore)

/-- Store after the second overwrite import of the purge scenario. -/
def c7S2 : Store := okStore (importRTMDataTx c7Doc2 true 2 c7S1)

/-- The one requirement node of `c3Doc`. -/
def c3Node : Req :=
  .node { baseReqFields with id := "SCOPE-1", componentId := "db" }
    none none []

/-- Result of deleting the scope node of `c5Store`. -/
def c5Result : Store := okStore (deleteRequirement 1 9 c5Store)

/-- The requirement row created by the first import of the purge
scenario. -/
def c7Req : RequirementRow := c7S1.requirements.getD 0 baseReqRow

/-- The implementation row created by the first import of the purge
scenario. -/
def c7ImplRow : ImplementationRow :=
  c7S1.implementations.getD 0
    { id := 0, requirementId := 0, layer := "", filePath := "",
      functions := [] }

/-- The coverage row created by the first import of the purge scenario. -/
def c7CovRow : CoverageRow :=
  c7S1.coverage.getD 0
    { id := 0, requirementId := 0, testCaseId := 0, coverageType := "" }

/-- The test-file row created by the first import of the purge scenario. -/
def c7TFRow : TestFileRow :=
  c7S1.testFiles.getD 0
    { id := 0, projectId := 0, filePath := "", testType := "",
      layer := "", framework := "" }

/-- The test-case row created by the first import of the purge scenario. -/
def c7TCRow : TestCaseRow :=
  c7S1.testCases.getD 0
    { id := 0, testFileId := 0, testName := "", testType := "" }

/-- The component row created by the first import of the purge scenario. -/
def c7CompRow : ComponentRow :=
  c7S1.components.getD 0
    { id := 0, projectId := 0, componentKey := "", name := "",
      componentType := "", technology := "", description := "" }

/-- The implementation rows inserted for a file list, with ids allocated
from `n`. -/
def implRowsFrom (rid : Nat) (layer : String) (n : Nat) :
    List FileImplDoc → List ImplementationRow
  | [] => []
  | f :: fs =>
    { id := n, requirementId := rid, layer := layer, filePath := f.path,
      functions := f.functions } :: implRowsFrom rid layer (n + 1) fs

/-- The implementation-attach effect: only the counter and the
implementation table change, and every new row has a fresh bounded id and
references `rid`. -/
def ImplExtend (rid : Nat) (s t : Store) : Prop :=
  ∃ rows,
    t = { s with
          nextId := s.nextId + rows.length,
          implementations := s.implementations ++ rows } ∧
    ∀ m ∈ rows, s.nextId ≤ m.id ∧ m.id < s.nextId + rows.length ∧
      m.requirementId = rid

/-- The test-attach effect: projects, components, requirements,
implementations, endpoints, tech stacks and audit entries are untouched;
the three test tables only grow, by rows with fresh bounded ids, scoped
to the project (`test_files`), linked into the project test files
(`test_cases`), and linked to the node (`coverage`). -/
def TestExtend (pid rid : Nat) (s t : Store) : Prop :=
  t.projects = s.projects ∧ t.components = s.components ∧
  t.requirements = s.requirements ∧ t.implementations = s.implementations ∧
  t.apiEndpoints = s.apiEndpoints ∧ t.techStacks = s.techStacks ∧
  t.changes = s.changes ∧ s.nextId ≤ t.nextId ∧
  ∃ tfNew tcNew cvNew,
    t.testFiles = s.testFiles ++ tfNew ∧
    t.testCases = s.testCases ++ tcNew ∧
    t.coverage = s.coverage ++ cvNew ∧
    (∀ x ∈ tfNew, s.nextId ≤ x.id ∧ x.id < t.nextId ∧ x.projectId = pid) ∧
    (∀ x ∈ tcNew, s.nextId ≤ x.id ∧ x.id < t.nextId ∧
      ∃ tf ∈ t.testFiles, tf.id = x.testFileId ∧ tf.projectId = pid) ∧
    (∀ x ∈ cvNew, s.nextId ≤ x.id ∧ x.id < t.nextId ∧ x.requirementId = rid)

/-- Well-formedness of the requirements table that the schema guarantees:
row ids are pairwise distinct (primary key) and below the id counter. -/
def WFreq (s : Store) : Prop :=
  (∀ r ∈ s.requirements, r.id < s.nextId) ∧
  (s.requirements.map (fun r => r.id)).Nodup

/-- The update-mode frame relation: requirement rows whose key is not
named by the document survive unchanged, together with their
implementation and coverage rows; table well-formedness is preserved. -/
def UpdFrame (K : List String) (s t : Store) : Prop :=
  WFreq s → WFreq t ∧
    ∀ r ∈ s.requirements, r.requirementKey ∉ K →
      (r ∈ t.requirements ∧
       (∀ m ∈ s.implementations, m.requirementId = r.id →
         m ∈ t.implementations) ∧
       (∀ cv ∈ s.coverage, cv.requirementId = r.id → cv ∈ t.coverage))

/-- Every row id of the store is below the id counter (the invariant of
the id generator). -/
def IdsBelow (s : Store) : Prop :=
  (∀ x ∈ s.projects, x.id < s.nextId) ∧
  (∀ x ∈ s.components, x.id < s.nextId) ∧
  (∀ x ∈ s.requirements, x.id < s.nextId) ∧
  (∀ x ∈ s.implementations, x.id < s.nextId) ∧
  (∀ x ∈ s.testFiles, x.id < s.nextId) ∧
  (∀ x ∈ s.testCases, x.id < s.nextId) ∧
  (∀ x ∈ s.coverage, x.id < s.nextId) ∧
  (∀ x ∈ s.apiEndpoints, x.id < s.nextId)

/-- Rows of the target store are either rows of the source store or
carry an id at least the source counter (they were inserted later). -/
def FreshOrOld (s t : Store) : Prop :=
  s.nextId ≤ t.nextId ∧
  (∀ x ∈ t.requirements, x ∈ s.requirements ∨ s.nextId ≤ x.id) ∧
  (∀ x ∈ t.components, x ∈ s.components ∨ s.nextId ≤ x.id) ∧
  (∀ x ∈ t.implementations, x ∈ s.implementations ∨ s.nextId ≤ x.id) ∧
  (∀ x ∈ t.testFiles, x ∈ s.testFiles ∨ s.nextId ≤ x.id) ∧
  (∀ x ∈ t.testCases, x ∈ s.testCases ∨ s.nextId ≤ x.id) ∧
  (∀ x ∈ t.coverage, x ∈ s.coverage ∨ s.nextId ≤ x.id) ∧
  (∀ x ∈ t.apiEndpoints, x ∈ s.apiEndpoints ∨ s.nextId ≤ x.id)

/-- Provenance of an overwrite-mode segment: tables only grow, and every
new row is scoped to (or linked into) project `pid`. -/
def PidScoped (pid : Nat) (s t : Store) : Prop :=
  (∀ x ∈ s.requirements, x ∈ t.requirements) ∧
  (∀ x ∈ s.testFiles, x ∈ t.testFiles) ∧
  (∀ x ∈ t.requirements, x ∈ s.requirements ∨ x.projectId = pid) ∧
  (∀ x ∈ t.components, x ∈ s.components ∨ x.projectId = pid) ∧
  (∀ x ∈ t.testFiles, x ∈ s.testFiles ∨ x.projectId = pid) ∧
  (∀ x ∈ t.apiEndpoints, x ∈ s.apiEndpoints ∨ x.projectId = pid) ∧
  (∀ x ∈ t.implementations, x ∈ s.implementations ∨
    ∃ r ∈ t.requirements, r.id = x.requirementId ∧ r.projectId = pid) ∧
  (∀ x ∈ t.coverage, x ∈ s.coverage ∨
    ∃ r ∈ t.requirements, r.id = x.requirementId ∧ r.projectId = pid) ∧
  (∀ x ∈ t.testCases, x ∈ s.testCases ∨
    ∃ tf ∈ t.testFiles, tf.id = x.testFileId ∧ tf.projectId = pid)

/-- The sibling keys the scope branch of the generator reads. -/
def scopeSiblingKeys (pid : Nat) (cid : Option Nat) (s : Store) :
    List String :=
  (s.requirements.filter (fun r =>
    r.projectId == pid && r.componentId == cid &&
    r.requirementType == "scope")).map (fun r => r.requirementKey)

/-! ## Frame machinery

The importer is a sequence of table edits; the lemmas below characterise
each operation once, and a generic simulation theorem lifts any
reflexive-transitive relation that is preserved by the three node-level
steps (upsert, implementation attach, test attach) through the recursive
document walk. -/

theorem insertImplementationRows_eq (rid : Nat) (layer : String) :
    ∀ (files : List FileImplDoc) (s : Store),
    insertImplementationRows rid layer files s =
      { s with
        nextId := s.nextId + files.length,
        implementations :=
          s.implementations ++ implRowsFrom rid layer s.nextId files } := by
  intro files
  induction files with
  | nil => intro s; simp [insertImplementationRows, implRowsFrom]
  | cons f fs ih =>
    intro s
    rw [insertImplementationRows, ih]
    simp [implRowsFrom]
    omega

theorem implRowsFrom_length (rid : Nat) (layer : String) :
    ∀ (files : List FileImplDoc) (n : Nat),
    (implRowsFrom rid layer n files).length = files.length := by
  intro files
  induction files with
  | nil => intro n; simp [implRowsFrom]
  | cons f fs ih => intro n; simp [implRowsFrom, ih]

theorem implRowsFrom_mem (rid : Nat) (layer : String) :
    ∀ (files : List FileImplDoc) (n : Nat) (m : ImplementationRow),
    m ∈ implRowsFrom rid layer n files →
      n ≤ m.id ∧ m.id < n + files.length ∧ m.requirementId = rid := by
  intro files
  induction files with
  | nil => intro n m h; simp [implRowsFrom] at h
  | cons f fs ih =>
    intro n m h
    simp only [implRowsFrom, List.mem_cons] at h
    cases h with
    | inl h =>
      subst h
      refine ⟨Nat.le_refl n, ?_, rfl⟩
      show n < n + (fs.length + 1)
      omega
    | inr h =>
      have := ih (n + 1) m h
      simp only [List.length_cons]
      omega

theorem implExtend_refl (rid : Nat) (s : Store) : ImplExtend rid s s :=
  ⟨[], by simp, by simp⟩

theorem implExtend_trans {rid : Nat} {s t u : Store}
    (h1 : ImplExtend rid s t) (h2 : ImplExtend rid t u) :
    ImplExtend rid s u := by
  obtain ⟨r1, he1, hb1⟩ := h1
  obtain ⟨r2, he2, hb2⟩ := h2
  subst he1
  refine ⟨r1 ++ r2, by simp_all [List.append_assoc]; omega, ?_⟩
  intro m hm
  simp only [List.mem_append] at hm
  rcases hm with hm | hm
  · have := hb1 m hm
    simp only [List.length_append]
    omega
  · have := hb2 m hm
    simp only [Store.mk.injEq] at he2
    simp only [List.length_append]
    simp at this
    omega

theorem implExtend_insert (rid : Nat) (layer : String)
    (files : List FileImplDoc) (s : Store) :
    ImplExtend rid s (insertImplementationRows rid layer files s) := by
  rw [insertImplementationRows_eq]
  refine ⟨implRowsFrom rid layer s.nextId files, ?_, ?_⟩
  · rw [implRowsFrom_length]
  · rw [implRowsFrom_length]
    exact fun m hm => implRowsFrom_mem rid layer files s.nextId m hm

/-- Full characterisation of `importImplementation` as an
implementation-attach effect. -/
theorem importImplementation_spec (rid : Nat) (im : ImplementationDoc)
    (s : Store) : ImplExtend rid s (importImplementation rid im s) := by
  unfold importImplementation
  cases im.backend <;> cases im.frontend <;> cases im.database <;>
    simp only <;>
    first
      | exact implExtend_refl rid s
      | exact implExtend_insert ..
      | exact implExtend_trans (implExtend_insert ..) (implExtend_insert ..)
      | exact implExtend_trans
          (implExtend_trans (implExtend_insert ..) (implExtend_insert ..))
          (implExtend_insert ..)

theorem testExtend_refl (pid rid : Nat) (s : Store) :
    TestExtend pid rid s s := by
  refine ⟨rfl, rfl, rfl, rfl, rfl, rfl, rfl, Nat.le_refl _,
    [], [], [], by simp, by simp, by simp, by simp, by simp, by simp⟩

theorem testExtend_trans {pid rid : Nat} {s t u : Store}
    (h1 : TestExtend pid rid s t) (h2 : TestExtend pid rid t u) :
    TestExtend pid rid s u := by
  obtain ⟨p1, c1, r1, i1, a1, k1, g1, n1, tf1, tc1, cv1, etf1, etc1, ecv1,
    btf1, btc1, bcv1⟩ := h1
  obtain ⟨p2, c2, r2, i2, a2, k2, g2, n2, tf2, tc2, cv2, etf2, etc2, ecv2,
    btf2, btc2, bcv2⟩ := h2
  refine ⟨p2.trans p1, c2.trans c1, r2.trans r1, i2.trans i1, a2.trans a1,
    k2.trans k1, g2.trans g1, n1.trans n2,
    tf1 ++ tf2, tc1 ++ tc2, cv1 ++ cv2, ?_, ?_, ?_, ?_, ?_, ?_⟩
  · rw [etf2, etf1, List.append_assoc]
  · rw [etc2, etc1, List.append_assoc]
  · rw [ecv2, ecv1, List.append_assoc]
  · intro x hx
    rcases List.mem_append.mp hx with hx | hx
    · have := btf1 x hx; omega
    · have := btf2 x hx; omega
  · intro x hx
    rcases List.mem_append.mp hx with hx | hx
    · obtain ⟨ha, hb, tf, htf, hid, hpid⟩ := btc1 x hx
      refine ⟨ha, by omega, tf, ?_, hid, hpid⟩
      rw [etf2]
      exact List.mem_append_left _ htf
    · obtain ⟨ha, hb, tf, htf, hid, hpid⟩ := btc2 x hx
      exact ⟨by omega, hb, tf, htf, hid, hpid⟩
  · intro x hx
    rcases List.mem_append.mp hx with hx | hx
    · have := bcv1 x hx; omega
    · have := bcv2 x hx; omega

/-- `ensureTestFile` is a test-attach effect. -/
theorem ensureTestFile_extend (pid rid : Nat) (path layer : String)
    (s : Store) : TestExtend pid rid s (ensureTestFile pid path layer s).2 := by
  unfold ensureTestFile
  cases h : s.testFiles.find? (fun tf =>
      tf.projectId == pid && tf.filePath == path) with
  | some tf => exact testExtend_refl pid rid s
  | none =>
    refine ⟨rfl, rfl, rfl, rfl, rfl, rfl, rfl, by simp,
      [_], [], [], rfl, by simp, by simp, ?_, by simp, by simp⟩
    intro x hx
    simp only [List.mem_singleton] at hx
    subst hx
    exact ⟨Nat.le_refl _, by simp, rfl⟩

/-- The id returned by `ensureTestFile` names a test-file row of the
project in the resulting store. -/
theorem ensureTestFile_resolves (pid : Nat) (path layer : String)
    (s : Store) :
    ∃ tf ∈ (ensureTestFile pid path layer s).2.testFiles,
      tf.id = (ensureTestFile pid path layer s).1 ∧ tf.projectId = pid := by
  unfold ensureTestFile
  cases h : s.testFiles.find? (fun tf =>
      tf.projectId == pid && tf.filePath == path) with
  | some tf =>
    have hmem := List.mem_of_find?_eq_some h
    have hp := List.find?_some h
    simp only [Bool.and_eq_true, beq_iff_eq] at hp
    exact ⟨tf, hmem, rfl, hp.1⟩
  | none =>
    refine ⟨_, List.mem_append_right _ (List.mem_singleton.mpr rfl), rfl, rfl⟩

/-- `ensureTestCase` is a test-attach effect when the given test-file id
resolves in the store. -/
theorem ensureTestCase_extend (pid rid fid : Nat) (name : String)
    (s : Store)
    (hfid : ∃ tf ∈ s.testFiles, tf.id = fid ∧ tf.projectId = pid) :
    TestExtend pid rid s (ensureTestCase fid name s).2 := by
  unfold ensureTestCase
  cases h : s.testCases.find? (fun tc =>
      tc.testFileId == fid && tc.testName == name) with
  | some tc => exact testExtend_refl pid rid s
  | none =>
    obtain ⟨tf, htf, hid, hpid⟩ := hfid
    refine ⟨rfl, rfl, rfl, rfl, rfl, rfl, rfl, by simp,
      [], [_], [], by simp, rfl, by simp, by simp, ?_, by simp⟩
    intro x hx
    simp only [List.mem_singleton] at hx
    subst hx
    exact ⟨Nat.le_refl _, by simp, tf, htf, by simpa using hid, hpid⟩

/-- `insertCoverageIgnore` is a test-attach effect. -/
theorem insertCoverageIgnore_extend (pid rid tcid : Nat) (s : Store) :
    TestExtend pid rid s (insertCoverageIgnore rid tcid s) := by
  unfold insertCoverageIgnore
  by_cases h : s.coverage.any (fun cv =>
      cv.requirementId == rid && cv.testCaseId == tcid)
  · simp only [h, if_true]
    exact testExtend_refl pid rid s
  · simp only [h, if_false]
    refine ⟨rfl, rfl, rfl, rfl, rfl, rfl, rfl, by simp,
      [], [], [_], by simp, by simp, rfl, by simp, by simp, ?_⟩
    intro x hx
    simp only [List.mem_singleton] at hx
    subst hx
    exact ⟨Nat.le_refl _, by simp, rfl⟩

/-- The test-case loop of one file is a test-attach effect. -/
theorem importTestCasesForFile_extend (pid rid fid : Nat) :
    ∀ (fns : List String) (s : Store),
    (∃ tf ∈ s.testFiles, tf.id = fid ∧ tf.projectId = pid) →
    TestExtend pid rid s (importTestCasesForFile rid fid fns s) := by
  intro fns
  induction fns with
  | nil => intro s _; exact testExtend_refl pid rid s
  | cons fn rest ih =>
    intro s hfid
    rw [importTestCasesForFile]
    have h1 := ensureTestCase_extend pid rid fid fn s hfid
    have h2 := insertCoverageIgnore_extend pid rid
      (ensureTestCase fid fn s).1 (ensureTestCase fid fn s).2
    have h12 := testExtend_trans h1 h2
    refine testExtend_trans h12 (ih _ ?_)
    obtain ⟨tf, htf, hid, hpid⟩ := hfid
    obtain ⟨-, -, -, -, -, -, -, -, tfNew, -, -, etf, -, -, -, -, -⟩ := h12
    exact ⟨tf, by rw [etf]; exact List.mem_append_left _ htf, hid, hpid⟩

/-- The test-file loop is a test-attach effect. -/
theorem importTestFiles_extend (pid rid : Nat) (layer : String) :
    ∀ (tfs : List TestFileDoc) (s : Store),
    TestExtend pid rid s (importTestFiles pid rid layer tfs s) := by
  intro tfs
  induction tfs with
  | nil => intro s; exact testExtend_refl pid rid s
  | cons tf rest ih =>
    intro s
    rw [importTestFiles]
    have h1 := ensureTestFile_extend pid rid tf.file layer s
    have hres := ensureTestFile_resolves pid tf.file layer s
    have h2 := importTestCasesForFile_extend pid rid
      (ensureTestFile pid tf.file layer s).1 tf.functions
      (ensureTestFile pid tf.file layer s).2 hres
    exact testExtend_trans (testExtend_trans h1 h2) (ih _)

/-- `importTestCoverage` is a test-attach effect. -/
theorem importTestCoverage_extend (pid rid : Nat) (t : TestCoverageDoc)
    (s : Store) : TestExtend pid rid s (importTestCoverage pid rid t s) :=
  testExtend_trans (importTestFiles_extend pid rid "backend" t.backend s)
    (importTestFiles_extend pid rid "frontend" t.frontend _)

/-- Case analysis of a successful `upsertRequirement`: either the insert
branch ran (the returned id is fresh and the new row is appended), or the
mode was update and an existing row with the project and key was updated
in place and its implementation and coverage rows purged. -/
theorem upsertRequirement_ok_cases {pid : Nat} {cid parent : Option Nat}
    {f : ReqFields} {ow : Bool} {now : Nat} {s : Store} {rid : Nat}
    {t : Store}
    (h : upsertRequirement pid cid parent f ow now s = .ok (rid, t)) :
    (rid = s.nextId ∧
     t = { s with
           nextId := s.nextId + 1,
           requirements := s.requirements ++
             [insertedReqRow pid cid parent f now s.nextId] }) ∨
    (ow = false ∧ ∃ existing, existing ∈ s.requirements ∧
      existing.projectId = pid ∧ existing.requirementKey = f.id ∧
      rid = existing.id ∧
      t = cleanupRequirementData existing.id
        (updateRequirementRow existing.id cid parent f now s)) := by
  unfold upsertRequirement at h
  by_cases how : ow
  · left
    simp only [how, if_true] at h
    unfold insertRequirementRow at h
    by_cases hdup : s.requirements.any (fun r =>
        r.projectId == pid && r.requirementKey == f.id)
    · rw [if_pos hdup] at h; cases h
    · rw [if_neg hdup] at h
      injection h with h
      injection h with h1 h2
      exact ⟨h1.symm, h2.symm⟩
  · simp only [Bool.not_eq_true] at how
    simp only [how, Bool.false_eq_true, if_false] at h
    cases hfind : s.requirements.find? (fun r =>
        r.projectId == pid && r.requirementKey == f.id) with
    | none =>
      left
      rw [hfind] at h
      unfold insertRequirementRow at h
      by_cases hdup : s.requirements.any (fun r =>
          r.projectId == pid && r.requirementKey == f.id)
      · rw [if_pos hdup] at h; cases h
      · rw [if_neg hdup] at h
        injection h with h
        injection h with h1 h2
        exact ⟨h1.symm, h2.symm⟩
    | some existing =>
      right
      rw [hfind] at h
      injection h with h
      injection h with h1 h2
      have hmem := List.mem_of_find?_eq_some hfind
      have hp := List.find?_some hfind
      simp only [Bool.and_eq_true, beq_iff_eq] at hp
      exact ⟨how, existing, hmem, hp.1, hp.2, h1.symm, h2.symm⟩

/-- A successful upsert leaves a requirement row of the project with the
returned id in the store. -/
theorem upsertRequirement_resolves {pid : Nat} {cid parent : Option Nat}
    {f : ReqFields} {ow : Bool} {now : Nat} {s : Store} {rid : Nat}
    {t : Store}
    (h : upsertRequirement pid cid parent f ow now s = .ok (rid, t)) :
    ∃ q ∈ t.requirements, q.id = rid ∧ q.projectId = pid := by
  rcases upsertRequirement_ok_cases h with ⟨hrid, ht⟩ | ⟨-, ex, hmem, hpid, -, hrid, ht⟩
  · subst ht
    exact ⟨insertedReqRow pid cid parent f now s.nextId,
      List.mem_append_right _ (List.mem_singleton.mpr rfl), hrid ▸ rfl, rfl⟩
  · subst ht
    refine ⟨updatedReqRow cid parent f now ex, ?_, hrid ▸ rfl, hpid⟩
    unfold cleanupRequirementData updateRequirementRow
    simp only
    refine List.mem_map.mpr ⟨ex, hmem, ?_⟩
    simp

/-- Requirements are untouched by the implementation attach. -/
theorem importImplementation_requirements (rid : Nat)
    (im : ImplementationDoc) (s : Store) :
    (importImplementation rid im s).requirements = s.requirements := by
  obtain ⟨rows, heq, -⟩ := importImplementation_spec rid im s
  rw [heq]

/-- Requirements are untouched by the test attach. -/
theorem importTestCoverage_requirements (pid rid : Nat)
    (t : TestCoverageDoc) (s : Store) :
    (importTestCoverage pid rid t s).requirements = s.requirements := by
  obtain ⟨-, -, hreq, -⟩ := importTestCoverage_extend pid rid t s
  exact hreq

mutual

/-- Generic simulation through the recursive document walk: a reflexive,
transitive relation preserved by every upsert of a node of the subtree
and by the implementation and test attaches (under the fact that the
attached id names a requirement row of the project) is preserved by
`importRequirement`. -/
theorem importRequirement_rel (R : Store → Store → Prop) (pid : Nat)
    (ow : Bool) (now : Nat)
    (hrefl : ∀ s, R s s)
    (htrans : ∀ a b c, R a b → R b c → R a c)
    (himpl : ∀ rid im s,
      (∃ q ∈ s.requirements, q.id = rid ∧ q.projectId = pid) →
      R s (importImplementation rid im s))
    (htests : ∀ rid t s,
      (∃ q ∈ s.requirements, q.id = rid ∧ q.projectId = pid) →
      R s (importTestCoverage pid rid t s)) :
    ∀ (r : Req) (cid parent : Option Nat) (s t : Store),
      (∀ f, f ∈ Req.fieldsOf r → ∀ cid2 parent2 s2 rid2 t2,
        upsertRequirement pid cid2 parent2 f ow now s2 = .ok (rid2, t2) →
        R s2 t2) →
      importRequirement pid cid r parent ow now s = .ok t → R s t := by
  intro r cid parent s t hupsert h
  match r with
  | .node f impl tests children =>
    rw [importRequirement] at h
    cases hup : upsertRequirement pid cid parent f ow now s with
    | error e => rw [hup] at h; cases h
    | ok p =>
      obtain ⟨rid, s1⟩ := p
      rw [hup] at h
      simp only at h
      have hchild : ∀ f2, f2 ∈ Req.fieldsListOf children →
          ∀ cid2 parent2 s2 rid2 t2,
          upsertRequirement pid cid2 parent2 f2 ow now s2 = .ok (rid2, t2) →
          R s2 t2 := by
        intro f2 hf2
        refine hupsert f2 ?_
        rw [Req.fieldsOf]
        exact List.mem_cons_of_mem _ hf2
      have hR1 : R s s1 :=
        hupsert f (by rw [Req.fieldsOf]; exact List.mem_cons_self _ _)
          cid parent s rid s1 hup
      have hq1 := upsertRequirement_resolves hup
      cases impl with
      | none =>
        cases tests with
        | none =>
          exact htrans _ _ _ hR1
            (importRequirementChildren_rel R pid ow now hrefl htrans himpl
              htests children rid cid s1 t hchild h)
        | some tc =>
          have hR2 : R s1 (importTestCoverage pid rid tc s1) :=
            htests rid tc s1 hq1
          exact htrans _ _ _ hR1 (htrans _ _ _ hR2
            (importRequirementChildren_rel R pid ow now hrefl htrans himpl
              htests children rid cid _ t hchild h))
      | some im =>
        have hR2 : R s1 (importImplementation rid im s1) :=
          himpl rid im s1 hq1
        have hq2 : ∃ q ∈ (importImplementation rid im s1).requirements,
            q.id = rid ∧ q.projectId = pid := by
          rw [importImplementation_requirements]; exact hq1
        cases tests with
        | none =>
          exact htrans _ _ _ hR1 (htrans _ _ _ hR2
            (importRequirementChildren_rel R pid ow now hrefl htrans himpl
              htests children rid cid _ t hchild h))
        | some tc =>
          have hR3 := htests rid tc _ hq2
          exact htrans _ _ _ hR1 (htrans _ _ _ hR2 (htrans _ _ _ hR3
            (importRequirementChildren_rel R pid ow now hrefl htrans himpl
              htests children rid cid _ t hchild h)))

/-- The child-list form of `importRequirement_rel`. -/
theorem importRequirementChildren_rel (R : Store → Store → Prop)
    (pid : Nat) (ow : Bool) (now : Nat)
    (hrefl : ∀ s, R s s)
    (htrans : ∀ a b c, R a b → R b c → R a c)
    (himpl : ∀ rid im s,
      (∃ q ∈ s.requirements, q.id = rid ∧ q.projectId = pid) →
      R s (importImplementation rid im s))
    (htests : ∀ rid t s,
      (∃ q ∈ s.requirements, q.id = rid ∧ q.projectId = pid) →
      R s (importTestCoverage pid rid t s)) :
    ∀ (rs : List Req) (parentId : Nat) (cid : Option Nat) (s t : Store),
      (∀ f, f ∈ Req.fieldsListOf rs → ∀ cid2 parent2 s2 rid2 t2,
        upsertRequirement pid cid2 parent2 f ow now s2 = .ok (rid2, t2) →
        R s2 t2) →
      importRequirementChildren pid cid rs parentId ow now s = .ok t →
      R s t := by
  intro rs parentId cid s t hupsert h
  match rs with
  | [] =>
    rw [importRequirementChildren] at h
    cases h
    exact hrefl s
  | r :: rest =>
    rw [importRequirementChildren] at h
    cases hr : importRequirement pid cid r (some parentId) ow now s with
    | error e => rw [hr] at h; cases h
    | ok s1 =>
      rw [hr] at h
      simp only at h
      refine htrans _ _ _
        (importRequirement_rel R pid ow now hrefl htrans himpl htests r cid
          (some parentId) s s1 ?_ hr)
        (importRequirementChildren_rel R pid ow now hrefl htrans himpl
          htests rest parentId cid s1 t ?_ h)
      · intro f hf
        refine hupsert f ?_
        rw [Req.fieldsListOf]
        exact List.mem_append_left _ hf
      · intro f hf
        refine hupsert f ?_
        rw [Req.fieldsListOf]
        exact List.mem_append_right _ hf

end

/-- The root-requirement loop preserves any relation preserved by the
node-level steps (each root resolves its own component key). -/
theorem importRootRequirements_rel (R : Store → Store → Prop) (pid : Nat)
    (ow : Bool) (now : Nat)
    (hrefl : ∀ s, R s s)
    (htrans : ∀ a b c, R a b → R b c → R a c)
    (himpl : ∀ rid im s,
      (∃ q ∈ s.requirements, q.id = rid ∧ q.projectId = pid) →
      R s (importImplementation rid im s))
    (htests : ∀ rid t s,
      (∃ q ∈ s.requirements, q.id = rid ∧ q.projectId = pid) →
      R s (importTestCoverage pid rid t s)) :
    ∀ (rs : List Req) (m : List (String × Nat)) (s t : Store),
      (∀ f, f ∈ Req.fieldsListOf rs → ∀ cid2 parent2 s2 rid2 t2,
        upsertRequirement pid cid2 parent2 f ow now s2 = .ok (rid2, t2) →
        R s2 t2) →
      importRootRequirements pid m rs ow now s = .ok t → R s t := by
  intro rs
  induction rs with
  | nil =>
    intro m s t _ h
    rw [importRootRequirements] at h
    cases h
    exact hrefl s
  | cons r rest ih =>
    intro m s t hupsert h
    rw [importRootRequirements] at h
    cases hr : importRequirement pid
        (componentMapLookup m r.fields.componentId) r none ow now s with
    | error e => rw [hr] at h; cases h
    | ok s1 =>
      rw [hr] at h
      simp only at h
      refine htrans _ _ _
        (importRequirement_rel R pid ow now hrefl htrans himpl htests r _
          none s s1 ?_ hr)
        (ih m s1 t ?_ h)
      · intro f hf
        refine hupsert f ?_
        rw [Req.fieldsListOf]
        exact List.mem_append_left _ hf
      · intro f hf
        refine hupsert f ?_
        rw [Req.fieldsListOf]
        exact List.mem_append_right _ hf

/-- The component loop preserves any reflexive-transitive relation
preserved by `importComponent`. -/
theorem importComponents_rel (R : Store → Store → Prop) (pid : Nat)
    (hrefl : ∀ s, R s s)
    (htrans : ∀ a b c, R a b → R b c → R a c)
    (hstep : ∀ c s, R s (importComponent pid c s).2) :
    ∀ (cs : List ComponentDoc) (m : List (String × Nat)) (s : Store),
      R s (importComponents pid cs m s).2 := by
  intro cs
  induction cs with
  | nil => intro m s; exact hrefl s
  | cons c rest ih =>
    intro m s
    rw [importComponents]
    exact htrans _ _ _ (hstep c s) (ih _ _)

/-- The endpoint loop preserves any reflexive-transitive relation
preserved by `importAPIEndpoint`. -/
theorem importApiEndpoints_rel (R : Store → Store → Prop) (pid : Nat)
    (hrefl : ∀ s, R s s)
    (htrans : ∀ a b c, R a b → R b c → R a c)
    (hstep : ∀ e s, R s (importAPIEndpoint pid e s)) :
    ∀ (es : List ApiEndpointDoc) (s : Store),
      R s (importApiEndpoints pid es s) := by
  intro es
  induction es with
  | nil => intro s; exact hrefl s
  | cons e rest ih =>
    intro s
    rw [importApiEndpoints]
    exact htrans _ _ _ (hstep e s) (ih _)

/-- Umbrella simulation through the whole import transaction. -/
theorem importRTMDataTx_rel (R : Store → Store → Prop)
    {d : RTMData} {ow : Bool} {now : Nat} {s t : Store}
    (hrefl : ∀ s2, R s2 s2)
    (htrans : ∀ a b c, R a b → R b c → R a c)
    (hproj : ∀ p now2 s2, R s2 (importProject p now2 s2))
    (hclean : ow = true → ∀ pid s2, R s2 (cleanupProjectData pid s2))
    (hcomp : ∀ pid c s2, R s2 (importComponent pid c s2).2)
    (hend : ∀ pid e s2, R s2 (importAPIEndpoint pid e s2))
    (hups : ∀ pid f, f ∈ Req.fieldsListOf d.requirements →
      ∀ cid parent s2 rid t2,
      upsertRequirement pid cid parent f ow now s2 = .ok (rid, t2) →
      R s2 t2)
    (himpl : ∀ pid rid im s2,
      (∃ q ∈ s2.requirements, q.id = rid ∧ q.projectId = pid) →
      R s2 (importImplementation rid im s2))
    (htests : ∀ pid rid tc s2,
      (∃ q ∈ s2.requirements, q.id = rid ∧ q.projectId = pid) →
      R s2 (importTestCoverage pid rid tc s2))
    (h : importRTMDataTx d ow now s = .ok t) : R s t := by
  unfold importRTMDataTx at h
  simp only [] at h
  cases hfind : (importProject d.project now s).projects.find? (fun row =>
      row.projectKey == d.project.id) with
  | none => rw [hfind] at h; cases h
  | some prow =>
    rw [hfind] at h
    simp only at h
    unfold importAfterProject at h
    simp only [] at h
    cases hroot : importRootRequirements prow.id
        (importComponents prow.id d.systemComponents []
          (if ow then cleanupProjectData prow.id (importProject d.project now s)
           else importProject d.project now s)).1
        d.requirements ow now
        (importComponents prow.id d.systemComponents []
          (if ow then cleanupProjectData prow.id (importProject d.project now s)
           else importProject d.project now s)).2 with
    | error e => rw [hroot] at h; cases h
    | ok s4 =>
      rw [hroot] at h
      simp only at h
      have h1 : R s (importProject d.project now s) := hproj _ _ _
      have h2 : R (importProject d.project now s)
          (if ow then cleanupProjectData prow.id (importProject d.project now s)
           else importProject d.project now s) := by
        cases how : ow with
        | true => simpa using hclean how prow.id _
        | false => simpa using hrefl _
      have h3 := importComponents_rel R prow.id hrefl htrans
        (fun c s2 => hcomp prow.id c s2) d.systemComponents []
        (if ow then cleanupProjectData prow.id (importProject d.project now s)
         else importProject d.project now s)
      have h4 := importRootRequirements_rel R prow.id ow now hrefl htrans
        (fun rid im s2 hq => himpl prow.id rid im s2 hq)
        (fun rid tc s2 hq => htests prow.id rid tc s2 hq)
        d.requirements _ _ _ (fun f hf => hups prow.id f hf) hroot
      have h5 := importApiEndpoints_rel R prow.id hrefl htrans
        (fun e s2 => hend prow.id e s2) d.apiEndpoints s4
      injection h with h
      rw [← h]
      exact htrans _ _ _ h1 (htrans _ _ _ h2 (htrans _ _ _ h3
        (htrans _ _ _ h4 h5)))

/-- No step of the import transaction writes to the audit table. -/
theorem importRTMDataTx_changes {d : RTMData} {ow : Bool} {now : Nat}
    {s t : Store} (h : importRTMDataTx d ow now s = .ok t) :
    t.changes = s.changes := by
  refine importRTMDataTx_rel (fun a b => b.changes = a.changes)
    ?_ ?_ ?_ ?_ ?_ ?_ ?_ ?_ ?_ h
  · intro s2; rfl
  · intro a b c h1 h2; rw [h2, h1]
  · intro p now2 s2; unfold importProject; split <;> rfl
  · intro _ pid s2; rfl
  · intro pid c s2; unfold importComponent; split <;> rfl
  · intro pid e s2; unfold importAPIEndpoint; split <;> rfl
  · intro pid f _ cid parent s2 rid t2 hup
    rcases upsertRequirement_ok_cases hup with ⟨-, ht⟩ |
      ⟨-, ex, -, -, -, -, ht⟩ <;> subst ht <;> rfl
  · intro pid rid im s2 _
    obtain ⟨rows, heq, -⟩ := importImplementation_spec rid im s2
    rw [heq]
  · intro pid rid tc s2 _
    obtain ⟨-, -, -, -, -, -, hch, -⟩ := importTestCoverage_extend pid rid tc s2
    exact hch

/-- Update-mode import never deletes a test-file or test-case row: the
old tables are sublists of the new ones. -/
theorem importRTMDataTx_testArtifacts {d : RTMData} {now : Nat}
    {s t : Store} (h : importRTMDataTx d false now s = .ok t) :
    s.testFiles.Sublist t.testFiles ∧ s.testCases.Sublist t.testCases := by
  refine importRTMDataTx_rel
    (fun a b => a.testFiles.Sublist b.testFiles ∧
      a.testCases.Sublist b.testCases) ?_ ?_ ?_ ?_ ?_ ?_ ?_ ?_ ?_ h
  · intro s2; exact ⟨List.Sublist.refl _, List.Sublist.refl _⟩
  · intro a b c h1 h2; exact ⟨h1.1.trans h2.1, h1.2.trans h2.2⟩
  · intro p now2 s2
    unfold importProject
    split <;> exact ⟨List.Sublist.refl _, List.Sublist.refl _⟩
  · intro hfalse; exact absurd hfalse Bool.false_ne_true
  · intro pid c s2
    unfold importComponent
    split <;> exact ⟨List.Sublist.refl _, List.Sublist.refl _⟩
  · intro pid e s2
    unfold importAPIEndpoint
    split <;> exact ⟨List.Sublist.refl _, List.Sublist.refl _⟩
  · intro pid f _ cid parent s2 rid t2 hup
    rcases upsertRequirement_ok_cases hup with ⟨-, ht⟩ |
      ⟨-, ex, -, -, -, -, ht⟩ <;> subst ht <;>
      exact ⟨List.Sublist.refl _, List.Sublist.refl _⟩
  · intro pid rid im s2 _
    obtain ⟨rows, heq, -⟩ := importImplementation_spec rid im s2
    rw [heq]
    exact ⟨List.Sublist.refl _, List.Sublist.refl _⟩
  · intro pid rid tc s2 _
    obtain ⟨-, -, -, -, -, -, -, -, tfNew, tcNew, -, etf, etc2, -, -⟩ :=
      importTestCoverage_extend pid rid tc s2
    rw [etf, etc2]
    exact ⟨List.sublist_append_left _ _, List.sublist_append_left _ _⟩

theorem updFrame_refl (K : List String) (s : Store) : UpdFrame K s s :=
  fun hwf => ⟨hwf, fun _ hr _ => ⟨hr, fun _ hm _ => hm, fun _ hcv _ => hcv⟩⟩

theorem updFrame_trans {K : List String} {s t u : Store}
    (h1 : UpdFrame K s t) (h2 : UpdFrame K t u) : UpdFrame K s u := by
  intro hwf
  obtain ⟨hwt, hf1⟩ := h1 hwf
  obtain ⟨hwu, hf2⟩ := h2 hwt
  refine ⟨hwu, fun r hr hk => ?_⟩
  obtain ⟨hrt, hmt, hct⟩ := hf1 r hr hk
  obtain ⟨hru, hmu, hcu⟩ := hf2 r hrt hk
  exact ⟨hru, fun m hm hid => hmu m (hmt m hm hid) hid,
    fun cv hcv hid => hcu cv (hct cv hcv hid) hid⟩

/-- A store change that only appends to tables other than requirements,
implementations and coverage (or appends to those as well) and does not
lower the counter preserves the update frame.  Stated for the concrete
shape used below: requirements unchanged, implementations and coverage
only extended, counter not decreased. -/
theorem updFrame_of_extend {K : List String} {s t : Store}
    (hreq : t.requirements = s.requirements)
    (himp : ∀ m ∈ s.implementations, m ∈ t.implementations)
    (hcov : ∀ cv ∈ s.coverage, cv ∈ t.coverage)
    (hn : s.nextId ≤ t.nextId) : UpdFrame K s t := by
  intro hwf
  refine ⟨⟨?_, ?_⟩, ?_⟩
  · intro r hr
    rw [hreq] at hr
    exact lt_of_lt_of_le (hwf.1 r hr) hn
  · rw [hreq]; exact hwf.2
  · intro r hr hk
    rw [← hreq] at hr
    exact ⟨hr, fun m hm _ => himp m hm, fun cv hcv _ => hcov cv hcv⟩

/-- The node upsert preserves the update frame when the node key is named
by `K`. -/
theorem upsertRequirement_updFrame {K : List String} {pid : Nat}
    {cid parent : Option Nat} {f : ReqFields} {ow : Bool} {now : Nat}
    {s : Store} {rid : Nat} {t : Store} (hK : f.id ∈ K)
    (hup : upsertRequirement pid cid parent f ow now s = .ok (rid, t)) :
    UpdFrame K s t := by
  rcases upsertRequirement_ok_cases hup with ⟨-, ht⟩ |
    ⟨-, ex, hexmem, -, hexkey, -, ht⟩
  · subst ht
    intro hwf
    refine ⟨⟨?_, ?_⟩, ?_⟩
    · intro r hr
      rcases List.mem_append.mp hr with hr | hr
      · exact lt_of_lt_of_le (hwf.1 r hr) (Nat.le_succ _)
      · rw [List.mem_singleton.mp hr]
        exact Nat.lt_succ_self _
    · simp only [List.map_append]
      rw [List.nodup_append]
      refine ⟨hwf.2, List.nodup_singleton _, ?_⟩
      intro x hx
      simp only [List.map_map, List.mem_map] at hx
      obtain ⟨r, hr, hid⟩ := hx
      have := hwf.1 r hr
      simp only [List.map_cons, List.map_nil, insertedReqRow,
        List.mem_singleton]
      omega
    · intro r hr _
      exact ⟨List.mem_append_left _ hr, fun m hm _ => hm,
        fun cv hcv _ => hcv⟩
  · subst ht
    intro hwf
    have hidpres : ∀ r : RequirementRow,
        (if r.id == ex.id then updatedReqRow cid parent f now r else r).id
          = r.id := by
      intro r
      by_cases hc : r.id == ex.id <;> simp [hc, updatedReqRow]
    constructor
    · constructor
      · intro r hr
        unfold cleanupRequirementData updateRequirementRow at hr
        simp only at hr
        obtain ⟨r0, hr0, hr0eq⟩ := List.mem_map.mp hr
        have hb := hwf.1 r0 hr0
        unfold cleanupRequirementData updateRequirementRow
        simp only
        have hid2 : r.id = r0.id := by rw [← hr0eq]; exact hidpres r0
        omega
      · unfold cleanupRequirementData updateRequirementRow
        simp only [List.map_map]
        have hmapeq : (s.requirements.map fun r =>
            (if r.id == ex.id then updatedReqRow cid parent f now r
             else r).id) = s.requirements.map fun r => r.id := by
          refine List.map_congr_left ?_
          intro r _
          exact hidpres r
        show (s.requirements.map fun r =>
          (if r.id == ex.id then updatedReqRow cid parent f now r
           else r).id).Nodup
        rw [hmapeq]
        exact hwf.2
    · intro r hr hk
      have hrne : r ≠ ex := by
        intro hre
        apply hk
        rw [hre, hexkey]
        exact hK
      have hidne : r.id ≠ ex.id := by
        intro hide
        exact hrne (List.inj_on_of_nodup_map hwf.2 hr hexmem hide)
      refine ⟨?_, ?_, ?_⟩
      · unfold cleanupRequirementData updateRequirementRow
        simp only
        refine List.mem_map.mpr ⟨r, hr, ?_⟩
        rw [if_neg (by simpa using hidne)]
      · intro m hm hid
        unfold cleanupRequirementData updateRequirementRow
        simp only
        refine List.mem_filter.mpr ⟨hm, ?_⟩
        simp only [Bool.not_eq_eq_eq_not, Bool.not_true, beq_eq_false_iff_ne]
        rw [hid]
        exact hidne
      · intro cv hcv hid
        unfold cleanupRequirementData updateRequirementRow
        simp only
        refine List.mem_filter.mpr ⟨hcv, ?_⟩
        simp only [Bool.not_eq_eq_eq_not, Bool.not_true, beq_eq_false_iff_ne]
        rw [hid]
        exact hidne

/-- Update-mode import only touches the requirement rows whose keys the
document names: every other row of the requirements table survives with
its implementation and coverage rows. -/
theorem importRTMDataTx_updFrame {d : RTMData} {now : Nat} {s t : Store}
    (h : importRTMDataTx d false now s = .ok t) :
    UpdFrame (docReqKeys d) s t := by
  refine importRTMDataTx_rel (UpdFrame (docReqKeys d))
    (fun s2 => updFrame_refl _ s2)
    (fun a b c h1 h2 => updFrame_trans h1 h2)
    ?_ ?_ ?_ ?_ ?_ ?_ ?_ h
  · intro p now2 s2
    unfold importProject
    split
    · exact updFrame_of_extend rfl (fun m hm => hm) (fun cv hcv => hcv)
        (Nat.le_refl _)
    · exact updFrame_of_extend rfl (fun m hm => hm) (fun cv hcv => hcv)
        (Nat.le_succ _)
  · intro hfalse; exact absurd hfalse Bool.false_ne_true
  · intro pid c s2
    unfold importComponent
    split
    · exact updFrame_of_extend rfl (fun m hm => hm) (fun cv hcv => hcv)
        (Nat.le_refl _)
    · exact updFrame_of_extend rfl (fun m hm => hm) (fun cv hcv => hcv)
        (Nat.le_succ _)
  · intro pid e s2
    unfold importAPIEndpoint
    split
    · exact updFrame_of_extend rfl (fun m hm => hm) (fun cv hcv => hcv)
        (Nat.le_refl _)
    · exact updFrame_of_extend rfl (fun m hm => hm) (fun cv hcv => hcv)
        (Nat.le_succ _)
  · intro pid f hf cid parent s2 rid t2 hup
    refine upsertRequirement_updFrame ?_ hup
    unfold docReqKeys
    exact List.mem_map.mpr ⟨f, hf, rfl⟩
  · intro pid rid im s2 _
    obtain ⟨rows, heq, -⟩ := importImplementation_spec rid im s2
    rw [heq]
    exact updFrame_of_extend rfl
      (fun m hm => List.mem_append_left _ hm) (fun cv hcv => hcv)
      (Nat.le_add_right _ _)
  · intro pid rid tc s2 _
    obtain ⟨-, -, hreq, himp, -, -, -, hn, -, -, cvNew, -, -, ecv, -, -, -⟩ :=
      importTestCoverage_extend pid rid tc s2
    refine updFrame_of_extend hreq (by rw [himp]; exact fun m hm => hm)
      ?_ hn
    rw [ecv]
    exact fun cv hcv => List.mem_append_left _ hcv

theorem freshOrOld_refl (s : Store) : FreshOrOld s s :=
  ⟨Nat.le_refl _, fun _ hx => .inl hx, fun _ hx => .inl hx,
   fun _ hx => .inl hx, fun _ hx => .inl hx, fun _ hx => .inl hx,
   fun _ hx => .inl hx, fun _ hx => .inl hx⟩

theorem freshOrOld_trans {s t u : Store} (h1 : FreshOrOld s t)
    (h2 : FreshOrOld t u) : FreshOrOld s u := by
  obtain ⟨n1, a1, b1, c1, d1, e1, f1, g1⟩ := h1
  obtain ⟨n2, a2, b2, c2, d2, e2, f2, g2⟩ := h2
  refine ⟨n1.trans n2, ?_, ?_, ?_, ?_, ?_, ?_, ?_⟩ <;>
    intro x hx
  · rcases a2 x hx with hx2 | hx2
    · exact a1 x hx2
    · exact .inr (n1.trans hx2)
  · rcases b2 x hx with hx2 | hx2
    · exact b1 x hx2
    · exact .inr (n1.trans hx2)
  · rcases c2 x hx with hx2 | hx2
    · exact c1 x hx2
    · exact .inr (n1.trans hx2)
  · rcases d2 x hx with hx2 | hx2
    · exact d1 x hx2
    · exact .inr (n1.trans hx2)
  · rcases e2 x hx with hx2 | hx2
    · exact e1 x hx2
    · exact .inr (n1.trans hx2)
  · rcases f2 x hx with hx2 | hx2
    · exact f1 x hx2
    · exact .inr (n1.trans hx2)
  · rcases g2 x hx with hx2 | hx2
    · exact g1 x hx2
    · exact .inr (n1.trans hx2)

/-- Sufficient condition for `FreshOrOld`: each table of `t` is the table
of `s` plus rows with ids at least `s.nextId`, and the counter does not
decrease.  Formulated through membership. -/
theorem freshOrOld_of_append {s t : Store}
    (hn : s.nextId ≤ t.nextId)
    (h1 : ∀ x ∈ t.requirements, x ∈ s.requirements ∨ s.nextId ≤ x.id)
    (h2 : ∀ x ∈ t.components, x ∈ s.components ∨ s.nextId ≤ x.id)
    (h3 : ∀ x ∈ t.implementations, x ∈ s.implementations ∨ s.nextId ≤ x.id)
    (h4 : ∀ x ∈ t.testFiles, x ∈ s.testFiles ∨ s.nextId ≤ x.id)
    (h5 : ∀ x ∈ t.testCases, x ∈ s.testCases ∨ s.nextId ≤ x.id)
    (h6 : ∀ x ∈ t.coverage, x ∈ s.coverage ∨ s.nextId ≤ x.id)
    (h7 : ∀ x ∈ t.apiEndpoints, x ∈ s.apiEndpoints ∨ s.nextId ≤ x.id) :
    FreshOrOld s t := ⟨hn, h1, h2, h3, h4, h5, h6, h7⟩

theorem importComponent_freshOrOld (pid : Nat) (c : ComponentDoc)
    (s : Store) : FreshOrOld s (importComponent pid c s).2 := by
  unfold importComponent
  cases s.components.find? (fun row =>
      row.projectId == pid && row.componentKey == c.id) with
  | some row => exact freshOrOld_refl s
  | none =>
    refine freshOrOld_of_append (by simp) ?_ ?_ ?_ ?_ ?_ ?_ ?_ <;>
      intro x hx <;>
      first
      | exact .inl hx
      | · simp only [List.mem_append, List.mem_singleton] at hx
          rcases hx with hx | hx
          · exact .inl hx
          · subst hx; exact .inr (Nat.le_refl _)

theorem upsertRequirement_freshOrOld {pid : Nat} {cid parent : Option Nat}
    {f : ReqFields} {now : Nat} {s : Store} {rid : Nat} {t : Store}
    (hup : upsertRequirement pid cid parent f true now s = .ok (rid, t)) :
    FreshOrOld s t := by
  rcases upsertRequirement_ok_cases hup with ⟨-, ht⟩ | ⟨hfalse, -⟩
  · subst ht
    refine freshOrOld_of_append (by simp) ?_ ?_ ?_ ?_ ?_ ?_ ?_ <;>
      intro x hx <;>
      first
      | exact .inl hx
      | · simp only [List.mem_append, List.mem_singleton] at hx
          rcases hx with hx | hx
          · exact .inl hx
          · subst hx; exact .inr (Nat.le_refl _)
  · cases hfalse

theorem importImplementation_freshOrOld (rid : Nat)
    (im : ImplementationDoc) (s : Store) :
    FreshOrOld s (importImplementation rid im s) := by
  obtain ⟨rows, heq, hb⟩ := importImplementation_spec rid im s
  rw [heq]
  refine freshOrOld_of_append (by simp) ?_ ?_ ?_ ?_ ?_ ?_ ?_ <;>
    intro x hx <;>
    first
    | exact .inl hx
    | · simp only [List.mem_append] at hx
        rcases hx with hx | hx
        · exact .inl hx
        · exact .inr (hb x hx).1

theorem importTestCoverage_freshOrOld (pid rid : Nat)
    (tc : TestCoverageDoc) (s : Store) :
    FreshOrOld s (importTestCoverage pid rid tc s) := by
  obtain ⟨hp, hc, hreq, himp, ha, hk, hch, hn, tfNew, tcNew, cvNew, etf,
    etc2, ecv, btf, btc, bcv⟩ := importTestCoverage_extend pid rid tc s
  refine freshOrOld_of_append hn ?_ ?_ ?_ ?_ ?_ ?_ ?_ <;> intro x hx
  · rw [hreq] at hx; exact .inl hx
  · rw [hc] at hx; exact .inl hx
  · rw [himp] at hx; exact .inl hx
  · rw [etf] at hx
    rcases List.mem_append.mp hx with hx | hx
    · exact .inl hx
    · exact .inr (btf x hx).1
  · rw [etc2] at hx
    rcases List.mem_append.mp hx with hx | hx
    · exact .inl hx
    · exact .inr (btc x hx).1
  · rw [ecv] at hx
    rcases List.mem_append.mp hx with hx | hx
    · exact .inl hx
    · exact .inr (bcv x hx).1
  · rw [ha] at hx; exact .inl hx

theorem importAPIEndpoint_freshOrOld (pid : Nat) (e : ApiEndpointDoc)
    (s : Store) : FreshOrOld s (importAPIEndpoint pid e s) := by
  unfold importAPIEndpoint
  split
  · exact freshOrOld_refl s
  · refine freshOrOld_of_append (by simp) ?_ ?_ ?_ ?_ ?_ ?_ ?_ <;>
      intro x hx <;>
      first
      | exact .inl hx
      | · simp only [List.mem_append, List.mem_singleton] at hx
          rcases hx with hx | hx
          · exact .inl hx
          · subst hx; exact .inr (Nat.le_refl _)

theorem pidScoped_refl (pid : Nat) (s : Store) : PidScoped pid s s :=
  ⟨fun _ hx => hx, fun _ hx => hx, fun _ hx => .inl hx, fun _ hx => .inl hx,
   fun _ hx => .inl hx, fun _ hx => .inl hx, fun _ hx => .inl hx,
   fun _ hx => .inl hx, fun _ hx => .inl hx⟩

theorem pidScoped_trans {pid : Nat} {s t u : Store}
    (h1 : PidScoped pid s t) (h2 : PidScoped pid t u) :
    PidScoped pid s u := by
  obtain ⟨gr1, gt1, a1, b1, c1, d1, e1, f1, g1⟩ := h1
  obtain ⟨gr2, gt2, a2, b2, c2, d2, e2, f2, g2⟩ := h2
  refine ⟨fun x hx => gr2 x (gr1 x hx), fun x hx => gt2 x (gt1 x hx),
    ?_, ?_, ?_, ?_, ?_, ?_, ?_⟩ <;> intro x hx
  · rcases a2 x hx with hx2 | hx2
    · exact a1 x hx2
    · exact .inr hx2
  · rcases b2 x hx with hx2 | hx2
    · exact b1 x hx2
    · exact .inr hx2
  · rcases c2 x hx with hx2 | hx2
    · exact c1 x hx2
    · exact .inr hx2
  · rcases d2 x hx with hx2 | hx2
    · exact d1 x hx2
    · exact .inr hx2
  · rcases e2 x hx with hx2 | hx2
    · rcases e1 x hx2 with hx3 | ⟨r, hr, hlink⟩
      · exact .inl hx3
      · exact .inr ⟨r, gr2 r hr, hlink⟩
    · exact .inr hx2
  · rcases f2 x hx with hx2 | hx2
    · rcases f1 x hx2 with hx3 | ⟨r, hr, hlink⟩
      · exact .inl hx3
      · exact .inr ⟨r, gr2 r hr, hlink⟩
    · exact .inr hx2
  · rcases g2 x hx with hx2 | hx2
    · rcases g1 x hx2 with hx3 | ⟨tf, htf, hlink⟩
      · exact .inl hx3
      · exact .inr ⟨tf, gt2 tf htf, hlink⟩
    · exact .inr hx2

theorem importComponent_pidScoped (pid : Nat) (c : ComponentDoc)
    (s : Store) : PidScoped pid s (importComponent pid c s).2 := by
  unfold importComponent
  cases s.components.find? (fun row =>
      row.projectId == pid && row.componentKey == c.id) with
  | some row => exact pidScoped_refl pid s
  | none =>
    refine ⟨fun _ hx => hx, fun _ hx => hx, fun _ hx => .inl hx, ?_,
      fun _ hx => .inl hx, fun _ hx => .inl hx, fun _ hx => .inl hx,
      fun _ hx => .inl hx, fun _ hx => .inl hx⟩
    intro x hx
    simp only [List.mem_append, List.mem_singleton] at hx
    rcases hx with hx | hx
    · exact .inl hx
    · subst hx; exact .inr rfl

theorem upsertRequirement_pidScoped {pid : Nat} {cid parent : Option Nat}
    {f : ReqFields} {now : Nat} {s : Store} {rid : Nat} {t : Store}
    (hup : upsertRequirement pid cid parent f true now s = .ok (rid, t)) :
    PidScoped pid s t := by
  rcases upsertRequirement_ok_cases hup with ⟨-, ht⟩ | ⟨hfalse, -⟩
  · subst ht
    refine ⟨fun _ hx => List.mem_append_left _ hx, fun _ hx => hx, ?_,
      fun _ hx => .inl hx, fun _ hx => .inl hx, fun _ hx => .inl hx,
      fun _ hx => .inl hx, fun _ hx => .inl hx, fun _ hx => .inl hx⟩
    intro x hx
    simp only [List.mem_append, List.mem_singleton] at hx
    rcases hx with hx | hx
    · exact .inl hx
    · subst hx; exact .inr rfl
  · cases hfalse

theorem importImplementation_pidScoped (pid rid : Nat)
    (im : ImplementationDoc) (s : Store)
    (hq : ∃ q ∈ s.requirements, q.id = rid ∧ q.projectId = pid) :
    PidScoped pid s (importImplementation rid im s) := by
  obtain ⟨rows, heq, hb⟩ := importImplementation_spec rid im s
  obtain ⟨q, hqmem, hqid, hqpid⟩ := hq
  rw [heq]
  refine ⟨fun _ hx => hx, fun _ hx => hx, fun _ hx => .inl hx,
    fun _ hx => .inl hx, fun _ hx => .inl hx, fun _ hx => .inl hx, ?_,
    fun _ hx => .inl hx, fun _ hx => .inl hx⟩
  intro x hx
  simp only [List.mem_append] at hx
  rcases hx with hx | hx
  · exact .inl hx
  · exact .inr ⟨q, hqmem, by rw [hqid, (hb x hx).2.2], hqpid⟩

theorem importTestCoverage_pidScoped (pid rid : Nat)
    (tc : TestCoverageDoc) (s : Store)
    (hq : ∃ q ∈ s.requirements, q.id = rid ∧ q.projectId = pid) :
    PidScoped pid s (importTestCoverage pid rid tc s) := by
  obtain ⟨hp, hc, hreq, himp, ha, hk, hch, hn, tfNew, tcNew, cvNew, etf,
    etc2, ecv, btf, btc, bcv⟩ := importTestCoverage_extend pid rid tc s
  obtain ⟨q, hqmem, hqid, hqpid⟩ := hq
  refine ⟨?_, ?_, ?_, ?_, ?_, ?_, ?_, ?_, ?_⟩ <;> intro x hx
  · rw [hreq]; exact hx
  · rw [etf]; exact List.mem_append_left _ hx
  · rw [hreq] at hx; exact .inl hx
  · rw [hc] at hx; exact .inl hx
  · rw [etf] at hx
    rcases List.mem_append.mp hx with hx | hx
    · exact .inl hx
    · exact .inr (btf x hx).2.2
  · rw [ha] at hx; exact .inl hx
  · rw [himp] at hx; exact .inl hx
  · rw [ecv] at hx
    rcases List.mem_append.mp hx with hx | hx
    · exact .inl hx
    · refine .inr ⟨q, by rw [hreq]; exact hqmem, ?_, hqpid⟩
      rw [hqid, (bcv x hx).2.2]
  · rw [etc2] at hx
    rcases List.mem_append.mp hx with hx | hx
    · exact .inl hx
    · obtain ⟨-, -, tf, htf, hid, hpidtf⟩ := btc x hx
      exact .inr ⟨tf, htf, hid, hpidtf⟩

theorem importAPIEndpoint_pidScoped (pid : Nat) (e : ApiEndpointDoc)
    (s : Store) : PidScoped pid s (importAPIEndpoint pid e s) := by
  unfold importAPIEndpoint
  split
  · exact pidScoped_refl pid s
  · refine ⟨fun _ hx => hx, fun _ hx => hx, fun _ hx => .inl hx,
      fun _ hx => .inl hx, fun _ hx => .inl hx, ?_, fun _ hx => .inl hx,
      fun _ hx => .inl hx, fun _ hx => .inl hx⟩
    intro x hx
    simp only [List.mem_append, List.mem_singleton] at hx
    rcases hx with hx | hx
    · exact .inl hx
    · subst hx; exact .inr rfl

theorem cleanupProjectData_nextId (pid : Nat) (s : Store) :
    (cleanupProjectData pid s).nextId = s.nextId := rfl

theorem cleanupProjectData_projects (pid : Nat) (s : Store) :
    (cleanupProjectData pid s).projects = s.projects := rfl

theorem cleanupProjectData_changes (pid : Nat) (s : Store) :
    (cleanupProjectData pid s).changes = s.changes := rfl

/-- Rows surviving cleanup were rows before (per table). -/
theorem cleanupProjectData_sub (pid : Nat) (s : Store) :
    (∀ x ∈ (cleanupProjectData pid s).requirements, x ∈ s.requirements) ∧
    (∀ x ∈ (cleanupProjectData pid s).components, x ∈ s.components) ∧
    (∀ x ∈ (cleanupProjectData pid s).implementations,
      x ∈ s.implementations) ∧
    (∀ x ∈ (cleanupProjectData pid s).testFiles, x ∈ s.testFiles) ∧
    (∀ x ∈ (cleanupProjectData pid s).testCases, x ∈ s.testCases) ∧
    (∀ x ∈ (cleanupProjectData pid s).coverage, x ∈ s.coverage) ∧
    (∀ x ∈ (cleanupProjectData pid s).apiEndpoints, x ∈ s.apiEndpoints) ∧
    (∀ x ∈ (cleanupProjectData pid s).techStacks, x ∈ s.techStacks) := by
  unfold cleanupProjectData
  simp only
  refine ⟨?_, ?_, ?_, ?_, ?_, ?_, ?_, ?_⟩ <;>
    exact fun x hx => List.mem_of_mem_filter hx

/-- Cleanup removes every row scoped to the project: requirement,
component, test-file, endpoint and tech-stack rows with the project id,
implementation and coverage rows whose requirement id names a requirement
row of the project, and test-case rows whose file id names a test file of
the project. -/
theorem cleanupProjectData_kills (pid : Nat) (s : Store) :
    (∀ x ∈ s.requirements, x.projectId = pid →
      x ∉ (cleanupProjectData pid s).requirements) ∧
    (∀ x ∈ s.components, x.projectId = pid →
      x ∉ (cleanupProjectData pid s).components) ∧
    (∀ x ∈ s.testFiles, x.projectId = pid →
      x ∉ (cleanupProjectData pid s).testFiles) ∧
    (∀ x ∈ s.apiEndpoints, x.projectId = pid →
      x ∉ (cleanupProjectData pid s).apiEndpoints) ∧
    (∀ x : ImplementationRow,
      (∃ r ∈ s.requirements, r.id = x.requirementId ∧ r.projectId = pid) →
      x ∉ (cleanupProjectData pid s).implementations) ∧
    (∀ x : CoverageRow,
      (∃ r ∈ s.requirements, r.id = x.requirementId ∧ r.projectId = pid) →
      x ∉ (cleanupProjectData pid s).coverage) ∧
    (∀ x : TestCaseRow,
      (∃ tf ∈ s.testFiles, tf.id = x.testFileId ∧ tf.projectId = pid) →
      x ∉ (cleanupProjectData pid s).testCases) := by
  unfold cleanupProjectData
  simp only
  refine ⟨?_, ?_, ?_, ?_, ?_, ?_, ?_⟩
  · intro x _ hpid hmem
    have := List.of_mem_filter hmem
    simp [hpid] at this
  · intro x _ hpid hmem
    have := List.of_mem_filter hmem
    simp [hpid] at this
  · intro x _ hpid hmem
    have := List.of_mem_filter hmem
    simp [hpid] at this
  · intro x _ hpid hmem
    have := List.of_mem_filter hmem
    simp [hpid] at this
  · intro x hex hmem
    have := List.of_mem_filter hmem
    obtain ⟨r, hr, hid, hpid⟩ := hex
    simp only [Bool.not_eq_eq_eq_not, Bool.not_true, List.any_eq_false] at this
    have := this r hr
    simp [hid, hpid] at this
  · intro x hex hmem
    have := List.of_mem_filter hmem
    obtain ⟨r, hr, hid, hpid⟩ := hex
    simp only [Bool.not_eq_eq_eq_not, Bool.not_true, List.any_eq_false] at this
    have := this r hr
    simp [hid, hpid] at this
  · intro x hex hmem
    have := List.of_mem_filter hmem
    obtain ⟨tf, htf, hid, hpid⟩ := hex
    simp only [Bool.not_eq_eq_eq_not, Bool.not_true, List.any_eq_false] at this
    have := this tf htf
    simp [hid, hpid] at this

/-- The project upsert leaves every table except `projects` unchanged,
and does not lower the counter. -/
theorem importProject_tables (p : ProjectDoc) (now : Nat) (s : Store) :
    (importProject p now s).components = s.components ∧
    (importProject p now s).requirements = s.requirements ∧
    (importProject p now s).implementations = s.implementations ∧
    (importProject p now s).testFiles = s.testFiles ∧
    (importProject p now s).testCases = s.testCases ∧
    (importProject p now s).coverage = s.coverage ∧
    (importProject p now s).apiEndpoints = s.apiEndpoints ∧
    (importProject p now s).techStacks = s.techStacks ∧
    (importProject p now s).changes = s.changes ∧
    s.nextId ≤ (importProject p now s).nextId := by
  unfold importProject
  split <;> simp

/-- When a project row with the key exists, the upsert takes the update
branch: the counter is unchanged and the projects list is mapped in
place. -/
theorem importProject_update (p : ProjectDoc) (now : Nat) (s : Store)
    (h : s.projects.any (fun row => row.projectKey == p.id) = true) :
    importProject p now s =
      { s with
        projects := s.projects.map (fun row =>
          if row.projectKey == p.id then
            { row with
              name := p.name, description := p.description,
              repositoryUrl := p.repository, version := p.version,
              updatedAt := now }
          else row) } := by
  unfold importProject
  rw [if_pos h]

theorem find?_any {α : Type} (p : α → Bool) (l : List α) (a : α)
    (h : l.find? p = some a) : l.any p = true := by
  rw [List.any_eq_true]
  refine List.find?_isSome.mp ?_
  rw [h]
  rfl

/-- Step criterion for preserving `IdsBelow`: every row of the target is
an id-preserving image of a source row or carries an id below the new
counter. -/
theorem idsBelow_step {s t : Store} (hn : s.nextId ≤ t.nextId)
    (hp : ∀ x ∈ t.projects, (∃ y ∈ s.projects, y.id = x.id) ∨ x.id < t.nextId)
    (hc : ∀ x ∈ t.components,
      (∃ y ∈ s.components, y.id = x.id) ∨ x.id < t.nextId)
    (hr : ∀ x ∈ t.requirements,
      (∃ y ∈ s.requirements, y.id = x.id) ∨ x.id < t.nextId)
    (hi : ∀ x ∈ t.implementations,
      (∃ y ∈ s.implementations, y.id = x.id) ∨ x.id < t.nextId)
    (htf : ∀ x ∈ t.testFiles,
      (∃ y ∈ s.testFiles, y.id = x.id) ∨ x.id < t.nextId)
    (htc : ∀ x ∈ t.testCases,
      (∃ y ∈ s.testCases, y.id = x.id) ∨ x.id < t.nextId)
    (hcv : ∀ x ∈ t.coverage,
      (∃ y ∈ s.coverage, y.id = x.id) ∨ x.id < t.nextId)
    (he : ∀ x ∈ t.apiEndpoints,
      (∃ y ∈ s.apiEndpoints, y.id = x.id) ∨ x.id < t.nextId)
    (hs : IdsBelow s) : IdsBelow t := by
  obtain ⟨wp, wc, wr, wi, wtf, wtc, wcv, we⟩ := hs
  refine ⟨?_, ?_, ?_, ?_, ?_, ?_, ?_, ?_⟩ <;> intro x hx
  · rcases hp x hx with ⟨y, hy, hid⟩ | hb
    · exact hid ▸ lt_of_lt_of_le (wp y hy) hn
    · exact hb
  · rcases hc x hx with ⟨y, hy, hid⟩ | hb
    · exact hid ▸ lt_of_lt_of_le (wc y hy) hn
    · exact hb
  · rcases hr x hx with ⟨y, hy, hid⟩ | hb
    · exact hid ▸ lt_of_lt_of_le (wr y hy) hn
    · exact hb
  · rcases hi x hx with ⟨y, hy, hid⟩ | hb
    · exact hid ▸ lt_of_lt_of_le (wi y hy) hn
    · exact hb
  · rcases htf x hx with ⟨y, hy, hid⟩ | hb
    · exact hid ▸ lt_of_lt_of_le (wtf y hy) hn
    · exact hb
  · rcases htc x hx with ⟨y, hy, hid⟩ | hb
    · exact hid ▸ lt_of_lt_of_le (wtc y hy) hn
    · exact hb
  · rcases hcv x hx with ⟨y, hy, hid⟩ | hb
    · exact hid ▸ lt_of_lt_of_le (wcv y hy) hn
    · exact hb
  · rcases he x hx with ⟨y, hy, hid⟩ | hb
    · exact hid ▸ lt_of_lt_of_le (we y hy) hn
    · exact hb

/-- The whole import transaction preserves the id-counter invariant and
never lowers the counter. -/
theorem importRTMDataTx_idsBelow {d : RTMData} {ow : Bool} {now : Nat}
    {s t : Store} (h : importRTMDataTx d ow now s = .ok t) :
    (IdsBelow s → IdsBelow t) ∧ s.nextId ≤ t.nextId := by
  refine importRTMDataTx_rel
    (fun a b => (IdsBelow a → IdsBelow b) ∧ a.nextId ≤ b.nextId)
    ?_ ?_ ?_ ?_ ?_ ?_ ?_ ?_ ?_ h
  · exact fun s2 => ⟨id, Nat.le_refl _⟩
  · intro a b c h1 h2
    exact ⟨fun ha => h2.1 (h1.1 ha), h1.2.trans h2.2⟩
  · intro p now2 s2
    unfold importProject
    split
    · refine ⟨idsBelow_step (by simp) ?_ ?_ ?_ ?_ ?_ ?_ ?_ ?_, by simp⟩ <;>
        intro x hx <;>
        first
        | exact .inl ⟨x, hx, rfl⟩
        | · simp only at hx
            rcases List.mem_map.mp hx with ⟨y, hy, hyx⟩
            subst hyx
            left
            refine ⟨y, hy, ?_⟩
            by_cases hk : y.projectKey == p.id <;> simp [hk]
    · refine ⟨idsBelow_step (by simp) ?_ ?_ ?_ ?_ ?_ ?_ ?_ ?_, by simp⟩ <;>
        intro x hx <;>
        first
        | exact .inl ⟨x, hx, rfl⟩
        | · simp only [List.mem_append, List.mem_singleton] at hx
            rcases hx with hx | hx
            · exact .inl ⟨x, hx, rfl⟩
            · subst hx
              right
              simp
  · intro _ pid s2
    obtain ⟨sr, sc, si, stf, stc, scv, se, stk⟩ := cleanupProjectData_sub pid s2
    refine ⟨idsBelow_step (le_of_eq (cleanupProjectData_nextId pid s2).symm)
      ?_ ?_ ?_ ?_ ?_ ?_ ?_ ?_, le_of_eq (cleanupProjectData_nextId pid s2).symm⟩ <;>
      intro x hx
    · rw [cleanupProjectData_projects] at hx
      exact .inl ⟨x, hx, rfl⟩
    · exact .inl ⟨x, sc x hx, rfl⟩
    · exact .inl ⟨x, sr x hx, rfl⟩
    · exact .inl ⟨x, si x hx, rfl⟩
    · exact .inl ⟨x, stf x hx, rfl⟩
    · exact .inl ⟨x, stc x hx, rfl⟩
    · exact .inl ⟨x, scv x hx, rfl⟩
    · exact .inl ⟨x, se x hx, rfl⟩
  · intro pid c s2
    unfold importComponent
    cases s2.components.find? (fun row =>
        row.projectId == pid && row.componentKey == c.id) with
    | some row => exact ⟨id, Nat.le_refl _⟩
    | none =>
      refine ⟨idsBelow_step (by simp) ?_ ?_ ?_ ?_ ?_ ?_ ?_ ?_, by simp⟩ <;>
        intro x hx <;>
        first
        | exact .inl ⟨x, hx, rfl⟩
        | · simp only [List.mem_append, List.mem_singleton] at hx
            rcases hx with hx | hx
            · exact .inl ⟨x, hx, rfl⟩
            · subst hx
              right
              simp
  · intro pid e s2
    unfold importAPIEndpoint
    split
    · exact ⟨id, Nat.le_refl _⟩
    · refine ⟨idsBelow_step (by simp) ?_ ?_ ?_ ?_ ?_ ?_ ?_ ?_, by simp⟩ <;>
        intro x hx <;>
        first
        | exact .inl ⟨x, hx, rfl⟩
        | · simp only [List.mem_append, List.mem_singleton] at hx
            rcases hx with hx | hx
            · exact .inl ⟨x, hx, rfl⟩
            · subst hx
              right
              simp
  · intro pid f _ cid parent s2 rid t2 hup
    rcases upsertRequirement_ok_cases hup with ⟨-, ht⟩ |
      ⟨-, ex, -, -, -, -, ht⟩
    · subst ht
      refine ⟨idsBelow_step (by simp) ?_ ?_ ?_ ?_ ?_ ?_ ?_ ?_, by simp⟩ <;>
        intro x hx <;>
        first
        | exact .inl ⟨x, hx, rfl⟩
        | · simp only [List.mem_append, List.mem_singleton] at hx
            rcases hx with hx | hx
            · exact .inl ⟨x, hx, rfl⟩
            · subst hx
              right
              simp [insertedReqRow]
    · subst ht
      unfold cleanupRequirementData updateRequirementRow
      simp only
      refine ⟨idsBelow_step (Nat.le_refl _) ?_ ?_ ?_ ?_ ?_ ?_ ?_ ?_,
        Nat.le_refl _⟩ <;> intro x hx
      · exact .inl ⟨x, hx, rfl⟩
      · exact .inl ⟨x, hx, rfl⟩
      · rcases List.mem_map.mp hx with ⟨y, hy, hyx⟩
        subst hyx
        left
        refine ⟨y, hy, ?_⟩
        by_cases hk : y.id == ex.id <;> simp [hk, updatedReqRow]
      · exact .inl ⟨x, List.mem_of_mem_filter hx, rfl⟩
      · exact .inl ⟨x, hx, rfl⟩
      · exact .inl ⟨x, hx, rfl⟩
      · exact .inl ⟨x, List.mem_of_mem_filter hx, rfl⟩
      · exact .inl ⟨x, hx, rfl⟩
  · intro pid rid im s2 _
    obtain ⟨rows, heq, hb⟩ := importImplementation_spec rid im s2
    rw [heq]
    refine ⟨idsBelow_step (by simp) ?_ ?_ ?_ ?_ ?_ ?_ ?_ ?_, by simp⟩ <;>
      intro x hx <;>
      first
      | exact .inl ⟨x, hx, rfl⟩
      | · simp only [List.mem_append] at hx
          rcases hx with hx | hx
          · exact .inl ⟨x, hx, rfl⟩
          · right
            have := hb x hx
            simp only
            omega
  · intro pid rid tc s2 _
    obtain ⟨hp2, hc2, hreq, himp, ha, hk, hch, hn, tfNew, tcNew, cvNew, etf,
      etc2, ecv, btf, btc, bcv⟩ := importTestCoverage_extend pid rid tc s2
    refine ⟨idsBelow_step hn ?_ ?_ ?_ ?_ ?_ ?_ ?_ ?_, hn⟩ <;> intro x hx
    · rw [hp2] at hx; exact .inl ⟨x, hx, rfl⟩
    · rw [hc2] at hx; exact .inl ⟨x, hx, rfl⟩
    · rw [hreq] at hx; exact .inl ⟨x, hx, rfl⟩
    · rw [himp] at hx; exact .inl ⟨x, hx, rfl⟩
    · rw [etf] at hx
      rcases List.mem_append.mp hx with hx | hx
      · exact .inl ⟨x, hx, rfl⟩
      · exact .inr (btf x hx).2.1
    · rw [etc2] at hx
      rcases List.mem_append.mp hx with hx | hx
      · exact .inl ⟨x, hx, rfl⟩
      · exact .inr (btc x hx).2.1
    · rw [ecv] at hx
      rcases List.mem_append.mp hx with hx | hx
      · exact .inl ⟨x, hx, rfl⟩
      · exact .inr (bcv x hx).2.1
    · rw [ha] at hx; exact .inl ⟨x, hx, rfl⟩

/-- The body after the project upsert never writes to `projects`. -/
theorem importAfterProject_projects {d : RTMData} {pid : Nat} {ow : Bool}
    {now : Nat} {s t : Store}
    (h : importAfterProject d pid ow now s = .ok t) :
    t.projects = s.projects := by
  unfold importAfterProject at h
  simp only [] at h
  cases hroot : importRootRequirements pid
      (importComponents pid d.systemComponents []
        (if ow then cleanupProjectData pid s else s)).1
      d.requirements ow now
      (importComponents pid d.systemComponents []
        (if ow then cleanupProjectData pid s else s)).2 with
  | error e => rw [hroot] at h; cases h
  | ok s4 =>
    rw [hroot] at h
    simp only at h
    injection h with h
    have h1 : (if ow then cleanupProjectData pid s else s).projects
        = s.projects := by
      cases ow <;> simp [cleanupProjectData_projects]
    have h2 := importComponents_rel (fun a b => b.projects = a.projects) pid
      (fun _ => rfl) (fun a b c hab hbc => hbc.trans hab)
      (fun c s2 => by unfold importComponent; split <;> rfl)
      d.systemComponents [] (if ow then cleanupProjectData pid s else s)
    have h3 := importRootRequirements_rel
      (fun a b => b.projects = a.projects) pid ow now
      (fun _ => rfl) (fun a b c hab hbc => hbc.trans hab)
      (fun rid im s2 _ => by
        obtain ⟨rows, heq, -⟩ := importImplementation_spec rid im s2
        rw [heq])
      (fun rid tc s2 _ =>
        (importTestCoverage_extend pid rid tc s2).1)
      d.requirements _ _ _
      (fun f _ cid2 parent2 s2 rid2 t2 hup => by
        rcases upsertRequirement_ok_cases hup with ⟨-, ht⟩ |
          ⟨-, ex, -, -, -, -, ht⟩ <;> subst ht <;> rfl)
      hroot
    have h4 := importApiEndpoints_rel
      (fun a b => b.projects = a.projects) pid
      (fun _ => rfl) (fun a b c hab hbc => hbc.trans hab)
      (fun e s2 => by unfold importAPIEndpoint; split <;> rfl)
      d.apiEndpoints s4
    rw [← h, h4, h3, h2, h1]

/-- The post-cleanup segment of an overwrite import (components, then the
requirement forest, then endpoints) only adds rows with fresh ids. -/
theorem importSegment_freshOrOld {pid : Nat} {d : RTMData} {now : Nat}
    {sC s4 : Store}
    (hroot : importRootRequirements pid
      (importComponents pid d.systemComponents [] sC).1 d.requirements
      true now (importComponents pid d.systemComponents [] sC).2 = .ok s4) :
    FreshOrOld sC (importApiEndpoints pid d.apiEndpoints s4) := by
  have h2 := importComponents_rel FreshOrOld pid freshOrOld_refl
    (fun a b c hab hbc => freshOrOld_trans hab hbc)
    (fun c s2 => importComponent_freshOrOld pid c s2)
    d.systemComponents [] sC
  have h3 := importRootRequirements_rel FreshOrOld pid true now
    freshOrOld_refl (fun a b c hab hbc => freshOrOld_trans hab hbc)
    (fun rid im s2 _ => importImplementation_freshOrOld rid im s2)
    (fun rid tc s2 _ => importTestCoverage_freshOrOld pid rid tc s2)
    d.requirements _ _ _
    (fun f _ cid2 parent2 s2 rid2 t2 hup =>
      upsertRequirement_freshOrOld hup)
    hroot
  have h4 := importApiEndpoints_rel FreshOrOld pid freshOrOld_refl
    (fun a b c hab hbc => freshOrOld_trans hab hbc)
    (fun e s2 => importAPIEndpoint_freshOrOld pid e s2)
    d.apiEndpoints s4
  exact freshOrOld_trans (freshOrOld_trans h2 h3) h4

/-- The post-cleanup segment of an overwrite import only adds rows scoped
to (or linked into) the project. -/
theorem importSegment_pidScoped {pid : Nat} {d : RTMData} {now : Nat}
    {sC s4 : Store}
    (hroot : importRootRequirements pid
      (importComponents pid d.systemComponents [] sC).1 d.requirements
      true now (importComponents pid d.systemComponents [] sC).2 = .ok s4) :
    PidScoped pid sC (importApiEndpoints pid d.apiEndpoints s4) := by
  have h2 := importComponents_rel (PidScoped pid) pid (pidScoped_refl pid)
    (fun a b c hab hbc => pidScoped_trans hab hbc)
    (fun c s2 => importComponent_pidScoped pid c s2)
    d.systemComponents [] sC
  have h3 := importRootRequirements_rel (PidScoped pid) pid true now
    (pidScoped_refl pid) (fun a b c hab hbc => pidScoped_trans hab hbc)
    (fun rid im s2 hq => importImplementation_pidScoped pid rid im s2 hq)
    (fun rid tc s2 hq => importTestCoverage_pidScoped pid rid tc s2 hq)
    d.requirements _ _ _
    (fun f _ cid2 parent2 s2 rid2 t2 hup =>
      upsertRequirement_pidScoped hup)
    hroot
  have h4 := importApiEndpoints_rel (PidScoped pid) pid (pidScoped_refl pid)
    (fun a b c hab hbc => pidScoped_trans hab hbc)
    (fun e s2 => importAPIEndpoint_pidScoped pid e s2)
    d.apiEndpoints s4
  exact pidScoped_trans (pidScoped_trans h2 h3) h4

/-- Decomposition of a successful overwrite-mode transaction: the project
row is resolved, the project tables are cleaned, and the segment runs. -/
theorem importRTMDataTx_ow_decomp {d : RTMData} {now : Nat} {s t : Store}
    (h : importRTMDataTx d true now s = .ok t) :
    ∃ prow s4,
      (importProject d.project now s).projects.find? (fun row =>
        row.projectKey == d.project.id) = some prow ∧
      importRootRequirements prow.id
        (importComponents prow.id d.systemComponents []
          (cleanupProjectData prow.id (importProject d.project now s))).1
        d.requirements true now
        (importComponents prow.id d.systemComponents []
          (cleanupProjectData prow.id (importProject d.project now s))).2
        = .ok s4 ∧
      t = importApiEndpoints prow.id d.apiEndpoints s4 := by
  unfold importRTMDataTx at h
  simp only [] at h
  cases hfind : (importProject d.project now s).projects.find? (fun row =>
      row.projectKey == d.project.id) with
  | none => rw [hfind] at h; cases h
  | some prow =>
    rw [hfind] at h
    simp only at h
    unfold importAfterProject at h
    simp only [if_true] at h
    cases hroot : importRootRequirements prow.id
        (importComponents prow.id d.systemComponents []
          (cleanupProjectData prow.id (importProject d.project now s))).1
        d.requirements true now
        (importComponents prow.id d.systemComponents []
          (cleanupProjectData prow.id (importProject d.project now s))).2 with
    | error e => rw [hroot] at h; cases h
    | ok s4 =>
      rw [hroot] at h
      simp only at h
      injection h with h
      exact ⟨prow, s4, hfind ▸ rfl, hroot, h.symm⟩

theorem mem_insertSortedBy {α : Type} (key : α → String) (x a : α) :
    ∀ (l : List α), a ∈ insertSortedBy key x l ↔ a = x ∨ a ∈ l := by
  intro l
  induction l with
  | nil => simp [insertSortedBy]
  | cons y ys ih =>
    unfold insertSortedBy
    split
    · simp
    · simp only [List.mem_cons, ih]
      tauto

theorem mem_sortRowsBy {α : Type} (key : α → String) (l : List α) (a : α) :
    a ∈ sortRowsBy key l ↔ a ∈ l := by
  unfold sortRowsBy
  induction l with
  | nil => simp
  | cons y ys ih =>
    simp only [List.foldr_cons, mem_insertSortedBy, List.mem_cons, ih]

/-- Every component summary of a project names an existing component row
of that project. -/
theorem getComponentsSummary_mem (pid : Nat) (s : Store)
    (c : ComponentSummary) (hc : c ∈ getComponentsSummary pid s) :
    ∃ row ∈ s.components, row.projectId = pid ∧
      row.componentKey = c.componentKey := by
  unfold getComponentsSummary at hc
  obtain ⟨row, hrow, hroweq⟩ := List.mem_map.mp hc
  rw [mem_sortRowsBy] at hrow
  have hmem := List.mem_of_mem_filter hrow
  have hpid := List.of_mem_filter hrow
  simp only [beq_iff_eq] at hpid
  exact ⟨row, hmem, hpid, by rw [← hroweq]⟩

/-- The component loop is the identity on the store when every listed
component already exists for the project. -/
theorem importComponents_noop (pid : Nat) :
    ∀ (cs : List ComponentDoc) (m : List (String × Nat)) (s : Store),
    (∀ c ∈ cs, ∃ row ∈ s.components, row.projectId = pid ∧
      row.componentKey = c.id) →
    (importComponents pid cs m s).2 = s := by
  intro cs
  induction cs with
  | nil => intro m s _; rfl
  | cons c rest ih =>
    intro m s hall
    rw [importComponents]
    obtain ⟨row, hrow, hpid, hkey⟩ := hall c (List.mem_cons_self c rest)
    have hfind : (s.components.find? (fun r =>
        r.projectId == pid && r.componentKey == c.id)).isSome := by
      rw [List.find?_isSome]
      exact ⟨row, hrow, by simp [hpid, hkey]⟩
    unfold importComponent
    cases hf : s.components.find? (fun r =>
        r.projectId == pid && r.componentKey == c.id) with
    | none => rw [hf] at hfind; cases hfind
    | some r0 =>
      simp only
      exact ih _ s (fun c2 hc2 => hall c2 (List.mem_cons_of_mem c hc2))

/-- On a store whose project keys are pairwise distinct, re-importing the
project block exported from a project row touches exactly that row, and
only its `updated_at` column. -/
theorem importProject_reimport {s : Store} {p : ProjectRow} {now : Nat}
    (hnodup : (s.projects.map (fun row => row.projectKey)).Nodup)
    (hp : s.projects.find? (fun row => row.projectKey == p.projectKey)
      = some p) :
    importProject
      { id := p.projectKey, name := p.name, description := p.description,
        repository := p.repositoryUrl, version := p.version } now s =
    { s with
      projects := s.projects.map (fun row =>
        if row.projectKey == p.projectKey then { row with updatedAt := now }
        else row) } := by
  have hany : s.projects.any (fun row =>
      row.projectKey == p.projectKey) = true := find?_any _ _ _ hp
  unfold importProject
  simp only
  rw [if_pos hany]
  have hpmem := List.mem_of_find?_eq_some hp
  congr 1
  refine List.map_congr_left ?_
  intro row hrow
  by_cases hk : row.projectKey == p.projectKey
  · have hroweq : row = p :=
      List.inj_on_of_nodup_map hnodup hrow hpmem (by simpa using hk)
    subst hroweq
    simp [hk]
  · simp [hk]

/-- Re-importing an exported project document in update mode rewrites
only the `updated_at` column of the project row: components are found and
skipped, and the requirement forest of the re-import input is empty
because the export writes the hierarchy into the `scopes` field that the
importer does not read. -/
theorem reimport_export_eq {k : String} {now : Nat} {s : Store}
    {p : ProjectRow} {e : RTMExport}
    (hnodup : (s.projects.map (fun row => row.projectKey)).Nodup)
    (hp : s.projects.find? (fun row => row.projectKey == k) = some p)
    (he : getExportDataAsRTM k s = some e) :
    importRTMDataTx (exportAsImportInput e) false now s =
      .ok { s with
            projects := s.projects.map (fun row =>
              if row.projectKey == k then { row with updatedAt := now }
              else row) } := by
  have hkey : p.projectKey = k := by
    have := List.find?_some hp
    simpa using this
  subst hkey
  unfold getExportDataAsRTM at he
  rw [hp] at he
  simp only [Option.some.injEq] at he
  subst he
  unfold exportAsImportInput
  simp only
  unfold importRTMDataTx
  simp only
  rw [importProject_reimport hnodup hp]
  have hgkey : ∀ row : ProjectRow,
      ((if row.projectKey == p.projectKey then { row with updatedAt := now }
        else row).projectKey == p.projectKey) = (row.projectKey == p.projectKey) := by
    intro row
    by_cases hk : row.projectKey == p.projectKey <;> simp [hk]
  have hfind2 : (s.projects.map (fun row =>
      if row.projectKey == p.projectKey then { row with updatedAt := now }
      else row)).find? (fun row => row.projectKey == p.projectKey) =
      some { p with updatedAt := now } := by
    rw [List.find?_map]
    have hpred : ((fun row : ProjectRow => row.projectKey == p.projectKey) ∘
        (fun row => if row.projectKey == p.projectKey then
          { row with updatedAt := now } else row)) =
        (fun row : ProjectRow => row.projectKey == p.projectKey) := by
      funext row
      exact hgkey row
    rw [hpred, hp]
    simp
  rw [hfind2]
  simp only
  unfold importAfterProject
  simp only [if_neg (by simp : ¬ (false = true))]
  have hnoop := importComponents_noop p.id
    ((getComponentsSummary p.id s).map (fun c =>
      ({ id := c.componentKey, name := c.name,
         componentType := c.componentType, technology := c.technology,
         description := c.description } : ComponentDoc)))
    []
    { s with
      projects := s.projects.map (fun row =>
        if row.projectKey == p.projectKey then { row with updatedAt := now }
        else row) }
    (by
      intro c hc
      obtain ⟨cs2, hcs2, hceq⟩ := List.mem_map.mp hc
      obtain ⟨row, hrow, hrpid, hrkey⟩ := getComponentsSummary_mem p.id s cs2 hcs2
      refine ⟨row, hrow, hrpid, ?_⟩
      rw [← hceq]
      exact hrkey)
  rw [hnoop]
  rw [importRootRequirements]
  simp only
  rw [importApiEndpoints]

/-- Lookup misses in the component map built by the loop when the key is
declared neither in the component list nor in the initial map. -/
theorem importComponents_lookup_none (pid : Nat) :
    ∀ (cs : List ComponentDoc) (m : List (String × Nat)) (s : Store)
      (k : String),
    k ∉ cs.map (fun c => c.id) → k ∉ m.map Prod.fst →
    componentMapLookup (importComponents pid cs m s).1 k = none := by
  intro cs
  induction cs with
  | nil =>
    intro m s k _ hm
    unfold componentMapLookup
    rw [List.find?_eq_none.mpr]
    · rfl
    · intro x hx
      simp only [beq_iff_eq]
      intro hxk
      exact hm (List.mem_map.mpr ⟨x, hx, hxk⟩)
  | cons c rest ih =>
    intro m s k hcs hm
    rw [importComponents]
    refine ih _ _ k (fun hmem => hcs ?_) ?_
    · simp only [List.map_cons, List.mem_cons]
      exact .inr hmem
    · intro hmem
      simp only [List.map_cons, List.mem_cons] at hmem
      rcases hmem with hk | hk
      · exact hcs (by simp [hk])
      · exact hm hk

/-- Overwrite-mode node import preserves requirement-row membership. -/
theorem importRequirement_mono {pid : Nat} {cid parent : Option Nat}
    {r : Req} {now : Nat} {s t : Store}
    (h : importRequirement pid cid r parent true now s = .ok t) :
    ∀ x ∈ s.requirements, x ∈ t.requirements := by
  refine importRequirement_rel
    (fun a b => ∀ x ∈ a.requirements, x ∈ b.requirements) pid true now
    (fun _ _ hx => hx) (fun a b c h1 h2 x hx => h2 x (h1 x hx))
    ?_ ?_ r cid parent s t ?_ h
  · intro rid im s2 _
    rw [importImplementation_requirements]
    exact fun x hx => hx
  · intro rid tc s2 _
    rw [importTestCoverage_requirements]
    exact fun x hx => hx
  · intro f _ cid2 parent2 s2 rid2 t2 hup
    rcases upsertRequirement_ok_cases hup with ⟨-, ht⟩ | ⟨hfalse, -⟩
    · subst ht
      exact fun x hx => List.mem_append_left _ hx
    · cases hfalse

/-- Overwrite-mode root-list import preserves membership. -/
theorem importRootRequirements_mono {pid : Nat} {m : List (String × Nat)}
    {rs : List Req} {now : Nat} {s t : Store}
    (h : importRootRequirements pid m rs true now s = .ok t) :
    ∀ x ∈ s.requirements, x ∈ t.requirements := by
  refine importRootRequirements_rel
    (fun a b => ∀ x ∈ a.requirements, x ∈ b.requirements) pid true now
    (fun _ _ hx => hx) (fun a b c h1 h2 x hx => h2 x (h1 x hx))
    ?_ ?_ rs m s t ?_ h
  · intro rid im s2 _
    rw [importImplementation_requirements]
    exact fun x hx => hx
  · intro rid tc s2 _
    rw [importTestCoverage_requirements]
    exact fun x hx => hx
  · intro f _ cid2 parent2 s2 rid2 t2 hup
    rcases upsertRequirement_ok_cases hup with ⟨-, ht⟩ | ⟨hfalse, -⟩
    · subst ht
      exact fun x hx => List.mem_append_left _ hx
    · cases hfalse

theorem mem_req_importImplementation {x : RequirementRow} {rid : Nat}
    {im : ImplementationDoc} {s : Store} (hx : x ∈ s.requirements) :
    x ∈ (importImplementation rid im s).requirements := by
  rw [importImplementation_requirements]
  exact hx

theorem mem_req_importTestCoverage {x : RequirementRow} {pid rid : Nat}
    {tc : TestCoverageDoc} {s : Store} (hx : x ∈ s.requirements) :
    x ∈ (importTestCoverage pid rid tc s).requirements := by
  rw [importTestCoverage_requirements]
  exact hx

/-- A successful overwrite-mode import of a node leaves a row with its
key and the resolved component id in the store. -/
theorem importRequirement_inserts {pid : Nat} {cid parent : Option Nat}
    {r : Req} {now : Nat} {s t : Store}
    (h : importRequirement pid cid r parent true now s = .ok t) :
    ∃ row ∈ t.requirements, row.requirementKey = r.fields.id ∧
      row.componentId = cid := by
  match r with
  | .node f impl tests children =>
    rw [importRequirement] at h
    cases hup : upsertRequirement pid cid parent f true now s with
    | error e => rw [hup] at h; cases h
    | ok p =>
      obtain ⟨rid, s1⟩ := p
      rw [hup] at h
      simp only at h
      rcases upsertRequirement_ok_cases hup with ⟨-, ht⟩ | ⟨hfalse, -⟩
      · subst ht
        have hmem : insertedReqRow pid cid parent f now s.nextId ∈
            ({ s with
               nextId := s.nextId + 1,
               requirements := s.requirements ++
                 [insertedReqRow pid cid parent f now s.nextId] } :
              Store).requirements :=
          List.mem_append_right _ (List.mem_singleton.mpr rfl)
        refine ⟨insertedReqRow pid cid parent f now s.nextId, ?_, rfl, rfl⟩
        have hch := importRequirementChildren_rel
          (fun a b => ∀ x ∈ a.requirements, x ∈ b.requirements) pid true now
          (fun _ _ hx => hx) (fun a b c h1 h2 x hx => h2 x (h1 x hx))
          (fun rid2 im s2 _ => fun x hx => mem_req_importImplementation hx)
          (fun rid2 tc s2 _ => fun x hx => mem_req_importTestCoverage hx)
          children rid _ _ t
          (fun f2 _ cid2 parent2 s2 rid2 t2 hup2 => by
            rcases upsertRequirement_ok_cases hup2 with ⟨-, ht2⟩ | ⟨hf2, -⟩
            · subst ht2
              exact fun x hx => List.mem_append_left _ hx
            · cases hf2)
          h
        refine hch _ ?_
        cases tests with
        | none =>
          cases impl with
          | none => exact hmem
          | some im => exact mem_req_importImplementation hmem
        | some tc =>
          cases impl with
          | none => exact mem_req_importTestCoverage hmem
          | some im =>
            exact mem_req_importTestCoverage
              (mem_req_importImplementation hmem)
      · cases hfalse

theorem importApiEndpoints_requirements (pid : Nat) :
    ∀ (es : List ApiEndpointDoc) (s : Store),
    (importApiEndpoints pid es s).requirements = s.requirements := by
  intro es
  induction es with
  | nil => intro s; rfl
  | cons e rest ih =>
    intro s
    rw [importApiEndpoints, ih]
    unfold importAPIEndpoint
    split <;> rfl

/-- Splitting a successful root-loop run at a member: the member was
imported from some intermediate store, and the rows it created survive to
the end of the loop. -/
theorem importRootRequirements_split {pid : Nat} {m : List (String × Nat)}
    {now : Nat} :
    ∀ {rs : List Req} {s t : Store},
    importRootRequirements pid m rs true now s = .ok t →
    ∀ r ∈ rs, ∃ u u2,
      importRequirement pid (componentMapLookup m r.fields.componentId) r
        none true now u = .ok u2 ∧
      (∀ x ∈ u2.requirements, x ∈ t.requirements) := by
  intro rs
  induction rs with
  | nil => intro s t _ r hr; cases hr
  | cons r0 rest ih =>
    intro s t h r hr
    rw [importRootRequirements] at h
    cases hr0 : importRequirement pid
        (componentMapLookup m r0.fields.componentId) r0 none true now s with
    | error e => rw [hr0] at h; cases h
    | ok s1 =>
      rw [hr0] at h
      simp only at h
      rcases List.mem_cons.mp hr with hr | hr
      · subst hr
        refine ⟨s, s1, hr0, ?_⟩
        intro x hx
        exact importRootRequirements_mono h x hx
      · exact ih h r hr

theorem generateNextRequirementKey_scope (pid : Nat) (cid : Option Nat)
    (s : Store) :
    generateNextRequirementKey pid cid "scope" none s =
      .ok (nextKeyFromSiblings "SCOPE-" true (scopeSiblingKeys pid cid s)) :=
  rfl

theorem scopeSiblingKeys_createScopeRow (pid : Nat) (cid : Option Nat)
    (key : String) (now : Nat) (s : Store) :
    scopeSiblingKeys pid cid (createScopeRow pid cid key now s) =
      scopeSiblingKeys pid cid s ++ [key] := by
  unfold scopeSiblingKeys createScopeRow
  simp

/-- The store-level key iteration computes the pure sibling-key
iteration. -/
theorem genScopeKeys_eq_pure (pid : Nat) (cid : Option Nat) (now : Nat) :
    ∀ (n : Nat) (s : Store),
    genScopeKeys pid cid now n s =
      pureGenScopeKeys n (scopeSiblingKeys pid cid s) := by
  intro n
  induction n with
  | zero => intro s; rfl
  | succ n ih =>
    intro s
    rw [genScopeKeys, pureGenScopeKeys,
      generateNextRequirementKey_scope]
    simp only
    rw [ih, scopeSiblingKeys_createScopeRow]

/-- String append is list append of the character data. -/
theorem strAppendAssoc (a b c : String) : a ++ b ++ c = a ++ (b ++ c) := by
  cases a with
  | mk l1 =>
    cases b with
    | mk l2 =>
      cases c with
      | mk l3 =>
        show String.mk ((l1 ++ l2) ++ l3) = String.mk (l1 ++ (l2 ++ l3))
        rw [List.append_assoc]

/-- The user-story branch of the generator. -/
theorem generateNextRequirementKey_user_story (pid : Nat)
    (cid : Option Nat) (p : Nat) (s : Store) :
    generateNextRequirementKey pid cid "user_story" (some p) s =
      (match s.requirements.find? (fun r => r.id == p) with
       | none => .error "failed to get parent requirement"
       | some prow =>
         .ok (nextKeyFromSiblings (prow.requirementKey ++ "-US-") false
           ((s.requirements.filter (fun r =>
             r.projectId == pid && r.parentId == some p &&
             r.requirementType == "user_story")).map
             (fun r => r.requirementKey)))) :=
  rfl

/-- The tech-spec branch of the generator. -/
theorem generateNextRequirementKey_tech_spec (pid : Nat)
    (cid : Option Nat) (p : Nat) (s : Store) :
    generateNextRequirementKey pid cid "tech_spec" (some p) s =
      (match s.requirements.find? (fun r => r.id == p) with
       | none => .error "failed to get parent requirement"
       | some prow =>
         .ok (nextKeyFromSiblings (prow.requirementKey ++ "-TS-") false
           ((s.requirements.filter (fun r =>
             r.projectId == pid && r.parentId == some p &&
             r.requirementType == "tech_spec")).map
             (fun r => r.requirementKey)))) :=
  rfl

/-- A requirement type outside the three known ones (checked after
lowercasing) is rejected. -/
theorem generateNextRequirementKey_invalid (pid : Nat) (cid : Option Nat)
    (ty : String) (par : Option Nat) (s : Store)
    (h1 : strToLower ty ≠ "scope") (h2 : strToLower ty ≠ "user_story")
    (h3 : strToLower ty ≠ "tech_spec") :
    generateNextRequirementKey pid cid ty par s =
      .error ("invalid requirement type: " ++ ty) := by
  have hb1 : (strToLower ty == "scope") = false := by
    simpa using h1
  have hb2 : (strToLower ty == "user_story") = false := by
    simpa using h2
  have hb3 : (strToLower ty == "tech_spec") = false := by
    simpa using h3
  simp [generateNextRequirementKey, hb1, hb2, hb3]

/-! ## Claims -/

/-- C7: importing `D1` in overwrite mode and then `D2` for the same
project in overwrite mode leaves no row created by the first import in
the store: the second import purges all project-scoped data (the cleanup
deletes coverage links, test cases, test files, implementations,
requirements, endpoints, components and tech stacks of the project)
before inserting fresh rows, and every fresh row carries a new id.
Stated for every table the first import can write. -/
theorem overwrite_purges_previous_import {d1 d2 : RTMData}
    {now1 now2 : Nat} {s0 s1 s2 : Store}
    (hkey : d1.project.id = d2.project.id)
    (hwf : IdsBelow s0)
    (h1 : importRTMDataTx d1 true now1 s0 = .ok s1)
    (h2 : importRTMDataTx d2 true now2 s1 = .ok s2) :
    (∀ x ∈ s1.requirements, x ∉ s0.requirements → x ∉ s2.requirements) ∧
    (∀ x ∈ s1.implementations, x ∉ s0.implementations →
      x ∉ s2.implementations) ∧
    (∀ x ∈ s1.coverage, x ∉ s0.coverage → x ∉ s2.coverage) ∧
    (∀ x ∈ s1.testFiles, x ∉ s0.testFiles → x ∉ s2.testFiles) ∧
    (∀ x ∈ s1.testCases, x ∉ s0.testCases → x ∉ s2.testCases) ∧
    (∀ x ∈ s1.components, x ∉ s0.components → x ∉ s2.components) ∧
    (∀ x ∈ s1.apiEndpoints, x ∉ s0.apiEndpoints → x ∉ s2.apiEndpoints) := by
  obtain ⟨prow1, s4a, hfind1, hroot1, ht1⟩ := importRTMDataTx_ow_decomp h1
  obtain ⟨prow2, s4b, hfind2, hroot2, ht2⟩ := importRTMDataTx_ow_decomp h2
  have hbelow1 : IdsBelow s1 := (importRTMDataTx_idsBelow h1).1 hwf
  have hafter1 : importAfterProject d1 prow1.id true now1
      (importProject d1.project now1 s0) = .ok s1 := by
    unfold importAfterProject
    simp only [if_true]
    rw [hroot1]
    simp only
    rw [ht1]
  have hprojseq : s1.projects = (importProject d1.project now1 s0).projects :=
    importAfterProject_projects hafter1
  have hpsc : PidScoped prow1.id
      (cleanupProjectData prow1.id (importProject d1.project now1 s0)) s1 := by
    rw [ht1]
    exact importSegment_pidScoped hroot1
  obtain ⟨hAc, hAr, hAi, hAtf, hAtc, hAcv, hAe, hAk, hAch, hAn⟩ :=
    importProject_tables d1.project now1 s0
  obtain ⟨hCr, hCc, hCi, hCtf, hCtc, hCcv, hCe, hCk⟩ :=
    cleanupProjectData_sub prow1.id (importProject d1.project now1 s0)
  -- run 2: the project upsert takes the update branch and preserves ids
  have hany2 : (s1.projects.any (fun row =>
      row.projectKey == d2.project.id)) = true := by
    rw [hprojseq, ← hkey]
    exact find?_any _ _ _ hfind1
  have himp2 := importProject_update d2.project now2 s1 hany2
  have hpred : ((fun row : ProjectRow => row.projectKey == d2.project.id) ∘
      (fun row => if row.projectKey == d2.project.id then
        { row with
          name := d2.project.name, description := d2.project.description,
          repositoryUrl := d2.project.repository,
          version := d2.project.version, updatedAt := now2 }
        else row)) =
      (fun row : ProjectRow => row.projectKey == d2.project.id) := by
    funext row
    by_cases hb : row.projectKey == d2.project.id
    · have hb2 : row.projectKey = d2.project.id := by simpa using hb
      simp [Function.comp, hb, hb2]
    · have hb2 : ¬ row.projectKey = d2.project.id := by simpa using hb
      simp [Function.comp, hb, hb2]
  rw [himp2] at hfind2
  rw [List.find?_map, hpred, hprojseq, ← hkey, hfind1] at hfind2
  simp only [Option.map_some', Option.some.injEq] at hfind2
  have hpid2 : prow2.id = prow1.id := by
    rw [← hfind2]
    split <;> rfl
  have hA2req : (importProject d2.project now2 s1).requirements
      = s1.requirements := by rw [himp2]
  have hA2imp : (importProject d2.project now2 s1).implementations
      = s1.implementations := by rw [himp2]
  have hA2cov : (importProject d2.project now2 s1).coverage
      = s1.coverage := by rw [himp2]
  have hA2tf : (importProject d2.project now2 s1).testFiles
      = s1.testFiles := by rw [himp2]
  have hA2tc : (importProject d2.project now2 s1).testCases
      = s1.testCases := by rw [himp2]
  have hA2c : (importProject d2.project now2 s1).components
      = s1.components := by rw [himp2]
  have hA2e : (importProject d2.project now2 s1).apiEndpoints
      = s1.apiEndpoints := by rw [himp2]
  have hA2n : (importProject d2.project now2 s1).nextId = s1.nextId := by
    rw [himp2]
  obtain ⟨hKr, hKc, hKtf, hKe, hKi, hKcv, hKtc⟩ :=
    cleanupProjectData_kills prow2.id (importProject d2.project now2 s1)
  have hfresh2 : FreshOrOld
      (cleanupProjectData prow2.id (importProject d2.project now2 s1)) s2 := by
    rw [ht2]
    exact importSegment_freshOrOld hroot2
  obtain ⟨hFn, hFr, hFc, hFi, hFtf, hFtc, hFcv, hFe⟩ := hfresh2
  have hcn : (cleanupProjectData prow2.id
      (importProject d2.project now2 s1)).nextId = s1.nextId := by
    rw [cleanupProjectData_nextId, hA2n]
  obtain ⟨hpscA, hpscB, hpsc1, hpsc2, hpsc3, hpsc4, hpsc5, hpsc6, hpsc7⟩ :=
    hpsc
  obtain ⟨hb1, hb2, hb3, hb4, hb5, hb6, hb7, hb8⟩ := hbelow1
  refine ⟨?_, ?_, ?_, ?_, ?_, ?_, ?_⟩
  · intro x hx hx0 hx2
    have hxpid : x.projectId = prow1.id := by
      rcases hpsc1 x hx with hxc | hxp
      · exact absurd (hAr ▸ hCr x hxc) hx0
      · exact hxp
    rcases hFr x hx2 with hmem | hfr
    · refine hKr x ?_ ?_ hmem
      · rw [hA2req]; exact hx
      · rw [hpid2]; exact hxpid
    · rw [hcn] at hfr
      exact absurd (hb3 x hx) (by omega)
  · intro x hx hx0 hx2
    have hlink : ∃ r ∈ s1.requirements,
        r.id = x.requirementId ∧ r.projectId = prow1.id := by
      rcases hpsc5 x hx with hxc | hxl
      · exact absurd (hAi ▸ hCi x hxc) hx0
      · exact hxl
    rcases hFi x hx2 with hmem | hfr
    · refine hKi x ?_ hmem
      rw [hA2req, hpid2]
      exact hlink
    · rw [hcn] at hfr
      exact absurd (hb4 x hx) (by omega)
  · intro x hx hx0 hx2
    have hlink : ∃ r ∈ s1.requirements,
        r.id = x.requirementId ∧ r.projectId = prow1.id := by
      rcases hpsc6 x hx with hxc | hxl
      · exact absurd (hAcv ▸ hCcv x hxc) hx0
      · exact hxl
    rcases hFcv x hx2 with hmem | hfr
    · refine hKcv x ?_ hmem
      rw [hA2req, hpid2]
      exact hlink
    · rw [hcn] at hfr
      exact absurd (hb7 x hx) (by omega)
  · intro x hx hx0 hx2
    have hxpid : x.projectId = prow1.id := by
      rcases hpsc3 x hx with hxc | hxp
      · exact absurd (hAtf ▸ hCtf x hxc) hx0
      · exact hxp
    rcases hFtf x hx2 with hmem | hfr
    · refine hKtf x ?_ ?_ hmem
      · rw [hA2tf]; exact hx
      · rw [hpid2]; exact hxpid
    · rw [hcn] at hfr
      exact absurd (hb5 x hx) (by omega)
  · intro x hx hx0 hx2
    have hlink : ∃ tf ∈ s1.testFiles,
        tf.id = x.testFileId ∧ tf.projectId = prow1.id := by
      rcases hpsc7 x hx with hxc | hxl
      · exact absurd (hAtc ▸ hCtc x hxc) hx0
      · exact hxl
    rcases hFtc x hx2 with hmem | hfr
    · refine hKtc x ?_ hmem
      rw [hA2tf, hpid2]
      exact hlink
    · rw [hcn] at hfr
      exact absurd (hb6 x hx) (by omega)
  · intro x hx hx0 hx2
    have hxpid : x.projectId = prow1.id := by
      rcases hpsc2 x hx with hxc | hxp
      · exact absurd (hAc ▸ hCc x hxc) hx0
      · exact hxp
    rcases hFc x hx2 with hmem | hfr
    · refine hKc x ?_ ?_ hmem
      · rw [hA2c]; exact hx
      · rw [hpid2]; exact hxpid
    · rw [hcn] at hfr
      exact absurd (hb2 x hx) (by omega)
  · intro x hx hx0 hx2
    have hxpid : x.projectId = prow1.id := by
      rcases hpsc4 x hx with hxc | hxp
      · exact absurd (hAe ▸ hCe x hxc) hx0
      · exact hxp
    rcases hFe x hx2 with hmem | hfr
    · refine hKe x ?_ ?_ hmem
      · rw [hA2e]; exact hx
      · rw [hpid2]; exact hxpid
    · rw [hcn] at hfr
      exact absurd (hb8 x hx) (by omega)

/-- Witness for C7: running the two overwrite imports concretely, the
requirement, implementation, coverage, test-file, test-case and component
rows created by the first import are all gone after the second. -/
theorem overwrite_purges_previous_import_witness :
    importRTMDataTx c7Doc1 true 1 emptyStore = .ok c7S1 ∧
    importRTMDataTx c7Doc2 true 2 c7S1 = .ok c7S2 ∧
    c7Req ∉ c7S2.requirements ∧
    c7ImplRow ∉ c7S2.implementations ∧
    c7CovRow ∉ c7S2.coverage ∧
    c7TFRow ∉ c7S2.testFiles ∧
    c7TCRow ∉ c7S2.testCases ∧
    c7CompRow ∉ c7S2.components := by
  have h1 : importRTMDataTx c7Doc1 true 1 emptyStore = .ok c7S1 := rfl
  have h2 : importRTMDataTx c7Doc2 true 2 c7S1 = .ok c7S2 := rfl
  have hwf : IdsBelow emptyStore := by
    unfold IdsBelow
    decide
  have hkey : c7Doc1.project.id = c7Doc2.project.id := rfl
  have hmain := overwrite_purges_previous_import hkey hwf h1 h2
  exact ⟨h1, h2,
    hmain.1 c7Req (by decide) (by decide),
    hmain.2.1 c7ImplRow (by decide) (by decide),
    hmain.2.2.1 c7CovRow (by decide) (by decide),
    hmain.2.2.2.1 c7TFRow (by decide) (by decide),
    hmain.2.2.2.2.1 c7TCRow (by decide) (by decide),
    hmain.2.2.2.2.2.1 c7CompRow (by decide) (by decide)⟩

/-- C2: a failed import rolls back.  Whenever the importer returns an
error — the body of the transaction fails at any step — the store the
caller sees is exactly the store it passed in: no row inserted, updated
or deleted by the failed run remains visible. -/
theorem failed_import_rolls_back {d : RTMData} {ow : Bool} {now : Nat}
    {s : Store} {e : String}
    (h : (runImport d ow now s).1 = .error e) :
    (runImport d ow now s).2 = s := by
  unfold runImport at h ⊢
  cases htx : importRTMDataTx d ow now s with
  | ok t =>
    rw [htx] at h
    exact absurd h (by simp)
  | error e2 => rfl

/-- Witness for C2: importing a document whose two root nodes share one
requirement key fails on the unique-key constraint, names the failing
entity in the error, and leaves the pre-existing store untouched. -/
theorem failed_import_rolls_back_witness :
    (runImport c2Doc true 1 c2Store).1 =
      .error "failed to import requirement SCOPE-1: UNIQUE constraint failed: requirements.project_id, requirements.requirement_key" ∧
    (runImport c2Doc true 1 c2Store).2 = c2Store := by
  have h : (runImport c2Doc true 1 c2Store).1 =
      .error "failed to import requirement SCOPE-1: UNIQUE constraint failed: requirements.project_id, requirements.requirement_key" :=
    rfl
  exact ⟨h, failed_import_rolls_back h⟩

/-- C4 (counterexample): an update-mode import that creates a requirement
node writes no audit entry — after the import the requirements table holds
the new node but the changes table is still empty, refuting the claim
that every import-time insert logs one audit entry. -/
theorem import_creates_node_without_audit_entry :
    importRTMDataTx c4Doc false 1 emptyStore = .ok c4Result ∧
    c4Result.requirements.map (fun r => r.requirementKey) = ["SCOPE-1"] ∧
    c4Result.changes = [] :=
  ⟨rfl, rfl, rfl⟩

/-- C4 (corrected): the import path never touches the audit table at
all — a successful import, in either mode, leaves the changes table of
the store exactly as it found it, so import-time inserts, updates and
deletes of requirement nodes are never audited (only the interactive
create/update/delete handlers write audit entries). -/
theorem import_preserves_audit_table {d : RTMData} {ow : Bool} {now : Nat}
    {s t : Store} (h : importRTMDataTx d ow now s = .ok t) :
    t.changes = s.changes :=
  importRTMDataTx_changes h

/-- Witness for C4: the concrete update-mode import leaves the (empty)
audit table empty. -/
theorem import_preserves_audit_table_witness :
    importRTMDataTx c4Doc false 1 emptyStore = .ok c4Result ∧
    c4Result.changes = emptyStore.changes := by
  have h : importRTMDataTx c4Doc false 1 emptyStore = .ok c4Result := rfl
  exact ⟨h, import_preserves_audit_table h⟩

/-- C10: update-mode reconciliation never deletes test artifacts.  The
per-node cleanup removes only implementation rows and coverage-link rows
(its test-file and test-case tables are untouched), and across a whole
successful update-mode import the old test_files and test_cases tables
survive as sublists of the new ones — once created, a test artifact row
persists even when nothing references it anymore. -/
theorem update_never_deletes_test_artifacts {d : RTMData} {now : Nat}
    {s t : Store} (h : importRTMDataTx d false now s = .ok t) :
    (∀ (rid : Nat) (u : Store),
      (cleanupRequirementData rid u).testFiles = u.testFiles ∧
      (cleanupRequirementData rid u).testCases = u.testCases) ∧
    s.testFiles.Sublist t.testFiles ∧
    s.testCases.Sublist t.testCases := by
  obtain ⟨h1, h2⟩ := importRTMDataTx_testArtifacts h
  exact ⟨fun rid u => ⟨rfl, rfl⟩, h1, h2⟩

/-- Witness for C10: importing over a store with an orphaned test file
and test case keeps both rows. -/
theorem update_never_deletes_test_artifacts_witness :
    importRTMDataTx c10Doc false 3 c10Store = .ok c10Result ∧
    c10Store.testFiles.Sublist c10Result.testFiles ∧
    c10Store.testCases.Sublist c10Result.testCases := by
  have h : importRTMDataTx c10Doc false 3 c10Store = .ok c10Result := rfl
  have hmain := update_never_deletes_test_artifacts h
  exact ⟨h, hmain.2.1, hmain.2.2⟩

/-- C1 (counterexample): the export/re-import round trip is not a no-op.
Reconciling `c1Doc`, exporting the project and re-importing the export in
update mode succeeds, but the resulting store differs from the store the
export was taken from (the project's updated_at timestamp is refreshed to
the time of the re-import). -/
theorem export_reimport_not_noop :
    (runImport c1Doc true 1 emptyStore).1 = .ok () ∧
    (getExportDataAsRTM "p1" c1S1).isSome = true ∧
    (runImport c1ExportDoc false 2 c1S1).1 = .ok () ∧
    (runImport c1ExportDoc false 2 c1S1).2 ≠ c1S1 :=
  ⟨rfl, rfl, rfl, by decide⟩

/-- C1 (corrected): re-importing a project's export in update mode is a
no-op on every table except the projects table, where only the exported
project's updated_at column is set to the import time.  Stated for any
store whose project keys are unique and whose export of key `k`
succeeds. -/
theorem reimport_of_export_touches_only_timestamp {k : String}
    {now : Nat} {s : Store} {p : ProjectRow} {e : RTMExport}
    (hnodup : (s.projects.map (fun row => row.projectKey)).Nodup)
    (hp : s.projects.find? (fun row => row.projectKey == k) = some p)
    (he : getExportDataAsRTM k s = some e) :
    importRTMDataTx (exportAsImportInput e) false now s =
      .ok { s with
            projects := s.projects.map (fun row =>
              if row.projectKey == k then { row with updatedAt := now }
              else row) } :=
  reimport_export_eq hnodup hp he

/-- Witness for C1: re-importing the export of `c1S1` concretely yields
the store with only the project timestamp refreshed. -/
theorem reimport_of_export_touches_only_timestamp_witness :
    importRTMDataTx c1ExportDoc false 2 c1S1 =
      .ok { c1S1 with
            projects := c1S1.projects.map (fun row =>
              if row.projectKey == "p1" then { row with updatedAt := 2 }
              else row) } := by
  have hnodup : (c1S1.projects.map (fun row => row.projectKey)).Nodup := by
    decide
  exact reimport_of_export_touches_only_timestamp hnodup rfl rfl

/-- C3 (counterexample): a document whose requirement names the component
key `db` while only `api` is declared imports successfully, and the node
is persisted with an empty component reference — no referential-integrity
error is raised and the transaction commits. -/
theorem undeclared_component_import_succeeds :
    importRTMDataTx c3Doc true 1 emptyStore = .ok c3Result ∧
    c3Result.requirements.map (fun r => (r.requirementKey, r.componentId)) =
      [("SCOPE-1", (none : Option Nat))] :=
  ⟨rfl, rfl⟩

/-- C3 (corrected): when a root requirement node names a component key
absent from the document's component list, a successful overwrite-mode
run persists that node with an empty (NULL) component reference
instead of failing: the component-map lookup misses, the zero value is
stored, and the transaction commits. -/
theorem undeclared_component_persists_with_null_reference {d : RTMData}
    {now : Nat} {s t : Store} {r : Req}
    (hr : r ∈ d.requirements)
    (hmiss : r.fields.componentId ∉ d.systemComponents.map (fun c => c.id))
    (h : importRTMDataTx d true now s = .ok t) :
    ∃ row ∈ t.requirements,
      row.requirementKey = r.fields.id ∧ row.componentId = none := by
  obtain ⟨prow, s4, hfind, hroot, ht⟩ := importRTMDataTx_ow_decomp h
  obtain ⟨u, u2, himp, hsub⟩ := importRootRequirements_split hroot r hr
  have hlook : componentMapLookup
      (importComponents prow.id d.systemComponents []
        (cleanupProjectData prow.id (importProject d.project now s))).1
      r.fields.componentId = none :=
    importComponents_lookup_none prow.id d.systemComponents [] _
      r.fields.componentId hmiss (by simp)
  rw [hlook] at himp
  obtain ⟨row, hrow, hkey, hcid⟩ := importRequirement_inserts himp
  refine ⟨row, ?_, hkey, hcid⟩
  rw [ht, importApiEndpoints_requirements]
  exact hsub row hrow

/-- Witness for C3: in the concrete import of `c3Doc` the persisted node
carries key SCOPE-1 and no component reference. -/
theorem undeclared_component_persists_with_null_reference_witness :
    importRTMDataTx c3Doc true 1 emptyStore = .ok c3Result ∧
    (∃ row ∈ c3Result.requirements,
      row.requirementKey = "SCOPE-1" ∧ row.componentId = none) := by
  have h : importRTMDataTx c3Doc true 1 emptyStore = .ok c3Result := rfl
  have hr : c3Node ∈ c3Doc.requirements := List.mem_singleton.mpr rfl
  have hmiss : c3Node.fields.componentId ∉
      c3Doc.systemComponents.map (fun c => c.id) := by decide
  exact ⟨h, undeclared_component_persists_with_null_reference hr hmiss h⟩

/-- C5 (code bug): deleting a scope node does not cascade.  In a store
holding a scope, its user-story child, that story's tech-spec child, an
implementation row and a coverage row of the tech spec and an audit entry
for the scope, `DeleteRequirement` on the scope removes only the scope
row itself: both descendants, their implementation and coverage rows all
survive (the connection never enables SQLite's foreign_keys pragma, so
the schema's ON DELETE CASCADE clauses never run), while the audit entry
survives as the specification says. -/
theorem delete_scope_strands_descendants :
    deleteRequirement 1 9 c5Store = .ok c5Result ∧
    c5Scope ∉ c5Result.requirements ∧
    c5Story ∈ c5Result.requirements ∧
    c5Spec ∈ c5Result.requirements ∧
    c5Impl ∈ c5Result.implementations ∧
    c5Cov ∈ c5Result.coverage ∧
    c5Audit ∈ c5Result.changes := by
  refine ⟨rfl, ?_, ?_, ?_, ?_, ?_, ?_⟩ <;> decide

/-- C6 (counterexample): the eleventh generated scope key collides.  Ten
generate-then-insert rounds from an empty component yield SCOPE-1 through
SCOPE-10, but the eleventh round generates SCOPE-10 again: the generator
picks the lexicographically greatest existing key (ORDER BY
requirement_key DESC), and "SCOPE-9" sorts above "SCOPE-10", so the
suffix sequence is neither strictly increasing nor gap-free. -/
theorem eleventh_scope_key_collides :
    genScopeKeys 1 (some 0) 0 11 emptyStore =
      ["SCOPE-1", "SCOPE-2", "SCOPE-3", "SCOPE-4", "SCOPE-5", "SCOPE-6",
       "SCOPE-7", "SCOPE-8", "SCOPE-9", "SCOPE-10", "SCOPE-10"] ∧
    ¬ (genScopeKeys 1 (some 0) 0 11 emptyStore).Nodup :=
  ⟨rfl, by decide⟩

/-- C6 (corrected): scope-key generation is sequential and gap-free only
while every suffix stays a single digit: for N ≤ 10 rounds from an empty
component the i-th generated key is SCOPE-i. -/
theorem scope_keys_sequential_up_to_ten (pid : Nat) (cid : Option Nat)
    (now : Nat) (n : Nat) (h : n ≤ 10) :
    genScopeKeys pid cid now n emptyStore =
      (List.range n).map (fun i => "SCOPE-" ++ toString (i + 1)) := by
  rw [genScopeKeys_eq_pure]
  have hempty : scopeSiblingKeys pid cid emptyStore = [] := rfl
  rw [hempty]
  interval_cases n <;> rfl

/-- Witness for C6: ten rounds concretely yield SCOPE-1 … SCOPE-10. -/
theorem scope_keys_sequential_up_to_ten_witness :
    genScopeKeys 1 (some 0) 0 10 emptyStore =
      (List.range 10).map (fun i => "SCOPE-" ++ toString (i + 1)) :=
  scope_keys_sequential_up_to_ten 1 (some 0) 0 10 (by decide)

/-- C8: the key generator's no-sibling prefixes and error cases.  With no
sibling key in scope the generated key is the prefix followed by 1, where
the prefix is SCOPE- for scope nodes and the parent node's key plus -US-
(resp. -TS-) for user stories (resp. tech specs); a user-story or
tech-spec request without a parent id errors, and a requirement type
outside scope/user_story/tech_spec (after lowercasing) errors naming the
type. -/
theorem generator_prefix_and_error_contract :
    (∀ (pid : Nat) (cid : Option Nat) (s : Store),
      scopeSiblingKeys pid cid s = [] →
      generateNextRequirementKey pid cid "scope" none s = .ok "SCOPE-1") ∧
    (∀ (pid p : Nat) (cid : Option Nat) (prow : RequirementRow) (s : Store),
      s.requirements.find? (fun r => r.id == p) = some prow →
      s.requirements.filter (fun r =>
        r.projectId == pid && r.parentId == some p &&
        r.requirementType == "user_story") = [] →
      generateNextRequirementKey pid cid "user_story" (some p) s =
        .ok (prow.requirementKey ++ "-US-1")) ∧
    (∀ (pid p : Nat) (cid : Option Nat) (prow : RequirementRow) (s : Store),
      s.requirements.find? (fun r => r.id == p) = some prow →
      s.requirements.filter (fun r =>
        r.projectId == pid && r.parentId == some p &&
        r.requirementType == "tech_spec") = [] →
      generateNextRequirementKey pid cid "tech_spec" (some p) s =
        .ok (prow.requirementKey ++ "-TS-1")) ∧
    (∀ (pid : Nat) (cid : Option Nat) (s : Store),
      generateNextRequirementKey pid cid "user_story" none s =
        .error "parent requirement ID required for user stories") ∧
    (∀ (pid : Nat) (cid : Option Nat) (s : Store),
      generateNextRequirementKey pid cid "tech_spec" none s =
        .error "parent requirement ID required for tech specs") ∧
    (∀ (pid : Nat) (cid : Option Nat) (ty : String) (par : Option Nat)
       (s : Store),
      strToLower ty ≠ "scope" → strToLower ty ≠ "user_story" →
      strToLower ty ≠ "tech_spec" →
      generateNextRequirementKey pid cid ty par s =
        .error ("invalid requirement type: " ++ ty)) := by
  refine ⟨?_, ?_, ?_, ?_, ?_, ?_⟩
  · intro pid cid s hk
    rw [generateNextRequirementKey_scope, hk]
    rfl
  · intro pid p cid prow s hfind hfilt
    rw [generateNextRequirementKey_user_story, hfind]
    show Except.ok (nextKeyFromSiblings (prow.requirementKey ++ "-US-")
      false ((s.requirements.filter (fun r =>
        r.projectId == pid && r.parentId == some p &&
        r.requirementType == "user_story")).map
        (fun r => r.requirementKey))) = _
    rw [hfilt]
    show Except.ok (prow.requirementKey ++ "-US-" ++ "1") = _
    rw [strAppendAssoc]
    rfl
  · intro pid p cid prow s hfind hfilt
    rw [generateNextRequirementKey_tech_spec, hfind]
    show Except.ok (nextKeyFromSiblings (prow.requirementKey ++ "-TS-")
      false ((s.requirements.filter (fun r =>
        r.projectId == pid && r.parentId == some p &&
        r.requirementType == "tech_spec")).map
        (fun r => r.requirementKey))) = _
    rw [hfilt]
    show Except.ok (prow.requirementKey ++ "-TS-" ++ "1") = _
    rw [strAppendAssoc]
    rfl
  · intro pid cid s
    rfl
  · intro pid cid s
    rfl
  · intro pid cid ty par s h1 h2 h3
    exact generateNextRequirementKey_invalid pid cid ty par s h1 h2 h3

/-- Witness for C8: each branch of the contract at a concrete store
holding one scope row SCOPE-2 (id 5) under project 1, component 2. -/
theorem generator_prefix_and_error_contract_witness :
    generateNextRequirementKey 9 none "scope" none c8Store =
      .ok "SCOPE-1" ∧
    generateNextRequirementKey 1 (some 2) "user_story" (some 5) c8Store =
      .ok "SCOPE-2-US-1" ∧
    generateNextRequirementKey 1 (some 2) "tech_spec" (some 5) c8Store =
      .ok "SCOPE-2-TS-1" ∧
    generateNextRequirementKey 1 none "user_story" none c8Store =
      .error "parent requirement ID required for user stories" ∧
    generateNextRequirementKey 1 none "tech_spec" none c8Store =
      .error "parent requirement ID required for tech specs" ∧
    generateNextRequirementKey 1 none "banana" none c8Store =
      .error "invalid requirement type: banana" := by
  have hmain := generator_prefix_and_error_contract
  refine ⟨hmain.1 9 none c8Store rfl, ?_, ?_,
    hmain.2.2.2.1 1 none c8Store, hmain.2.2.2.2.1 1 none c8Store,
    hmain.2.2.2.2.2 1 none "banana" none c8Store (by decide) (by decide)
      (by decide)⟩
  · exact hmain.2.1 1 5 (some 2) c8Parent c8Store rfl rfl
  · exact hmain.2.2.1 1 5 (some 2) c8Parent c8Store rfl rfl

/-- C9: update-mode reconciliation only touches nodes whose keys appear
in the document.  In a well-formed store (distinct requirement ids below
the id counter), any requirement row whose key the document does not
mention survives a successful update-mode import unchanged, together with
every implementation row and coverage row attached to it. -/
theorem update_preserves_untouched_siblings {d : RTMData} {now : Nat}
    {s t : Store} {r : RequirementRow}
    (hwf : WFreq s)
    (h : importRTMDataTx d false now s = .ok t)
    (hr : r ∈ s.requirements)
    (hk : r.requirementKey ∉ docReqKeys d) :
    r ∈ t.requirements ∧
    (∀ m ∈ s.implementations, m.requirementId = r.id →
      m ∈ t.implementations) ∧
    (∀ cv ∈ s.coverage, cv.requirementId = r.id → cv ∈ t.coverage) :=
  ((importRTMDataTx_updFrame h) hwf).2 r hr hk

/-- Witness for C9: importing a document naming only S1 over a store
holding S1 and S2 keeps the S2 row and its implementation and coverage
rows byte for byte. -/
theorem update_preserves_untouched_siblings_witness :
    importRTMDataTx c9Doc false 3 c9Store = .ok c9Result ∧
    c9S2 ∈ c9Result.requirements ∧
    c9Impl ∈ c9Result.implementations ∧
    c9Cov ∈ c9Result.coverage := by
  have h : importRTMDataTx c9Doc false 3 c9Store = .ok c9Result := rfl
  have hwf : WFreq c9Store := by
    unfold WFreq
    decide
  have hr : c9S2 ∈ c9Store.requirements := by decide
  have hk : c9S2.requirementKey ∉ docReqKeys c9Doc := by decide
  have hmain := update_preserves_untouched_siblings hwf h hr hk
  exact ⟨h, hmain.1, hmain.2.1 c9Impl (by decide) rfl,
    hmain.2.2 c9Cov (by decide) rfl⟩
